import Mathlib

/-!
Verification of the AI-Todo backend's LLM enrichment pipeline
(priority scoring, context-to-task synthesis, snapshot caching).

The definitions below are a shallow embedding of the Python source:
  - `todo_app/serializers.py` (TaskSerializer: validation, priority scoring,
    create/update),
  - `todo_app/views.py` (`process_contexts_for_tasks`, snapshot caching),
  - `todo_app/signals.py` (cache invalidation receivers).

Modelling conventions:
  - UUIDs are modelled as `Nat` identifiers; datetimes as opaque values
    (`Option String` for ISO text fields, `Nat` logical timestamps for
    recency ordering).
  - The HTTP completion call (`requests.post` to LM Studio) is modelled by
    an oracle argument of type `Except UpstreamFailure String`: the three
    failure constructors stand for a network/timeout error
    (`requests.exceptions.RequestException`), a non-2xx status
    (`raise_for_status`), and a malformed response body (missing
    `choices[0].message.content`, i.e. `KeyError`/`IndexError`/JSON decode
    error on the envelope).
  - `json.loads` is modelled by an executable JSON parser over `List Char`.
    Finite Python floats are represented by exact decimal
    mantissa/exponent pairs (rounding of finite literals to the nearest
    double is approximated by exact arithmetic); literals whose magnitude
    reaches the IEEE-754 double overflow threshold 2^1024 - 2^970 become
    `floatInf`, exactly as Python's `float` conversion overflows to
    `inf`, and the `NaN`/`Infinity`/`-Infinity` constants that Python's
    `json.loads` accepts by default are parsed. `int()` on an infinite
    float raises `OverflowError`, which NEITHER except clause of
    `_calculate_priority_score` catches: that genuinely raising path is
    tracked by the `extractScoreRaises`/`calculateScoreRaises`
    predicates, and the `Int`-valued scoring model is only meaningful
    where they are false.
  - `re.search(r'\x7b.*\x7d', s, re.DOTALL)` is modelled by `spanGreedy`:
    the leftmost-starting match of that pattern is the substring from the
    first opening character to the last closing character at or after it,
    which with a greedy `.*` under DOTALL is first-opener-to-last-closer.
-/

namespace TodoApp

/-! ### Named character constants used throughout the embedding -/

def lbrace : Char := Char.ofNat 123

def rbrace : Char := Char.ofNat 125

def lbrack : Char := Char.ofNat 91

def rbrack : Char := Char.ofNat 93

def dquote : Char := Char.ofNat 34

def bslash : Char := Char.ofNat 92

/-! ### Generic list scanning (regex-search denotations) -/

/-- Index of the first element satisfying `p`, if any. -/
def firstIdx? (p : Char → Bool) : List Char → Option Nat
  | [] => none
  | c :: cs => if p c then some 0 else (firstIdx? p cs).map (· + 1)

/-- Index of the last element satisfying `p`, if any. -/
def lastIdx? (p : Char → Bool) : List Char → Option Nat
  | [] => none
  | c :: cs =>
    match lastIdx? p cs with
    | some k => some (k + 1)
    | none => if p c then some 0 else none

/-- Denotation of `re.search(open ++ dotStar ++ close, s, re.DOTALL)` with a
greedy `.*`: the match runs from the first occurrence of `o` to the last
occurrence of `c`, provided the former does not come after the latter. -/
def spanGreedy (o c : Char) (cs : List Char) : Option (List Char) :=
  match firstIdx? (fun x => x = o) cs, lastIdx? (fun x => x = c) cs with
  | some i, some j => if i ≤ j then some ((cs.drop i).take (j + 1 - i)) else none
  | _, _ => none

/-- Denotation of the same search with a non-greedy `.*?`: the match runs
from the first occurrence of `o` to the first occurrence of `c` after it. -/
def spanNonGreedy (o c : Char) (cs : List Char) : Option (List Char) :=
  match firstIdx? (fun x => x = o) cs with
  | some i =>
    match firstIdx? (fun x => x = c) (cs.drop i) with
    | some k => some ((cs.drop i).take (k + 1))
    | none => none
  | none => none

/-- First maximal run of decimal digits, if any: denotation of
`re.search(r'\d+', s)` restricted to ASCII text. -/
def firstDigitRun : List Char → Option (List Char)
  | [] => none
  | c :: cs => if c.isDigit then some (c :: cs.takeWhile Char.isDigit) else firstDigitRun cs

def natOfDigits (ds : List Char) : Nat :=
  ds.foldl (fun a c => a * 10 + (c.toNat - 48)) 0

/-! ### JSON values and `json.loads` -/

/-- JSON values as produced by Python's `json.loads`. A number literal with
neither fraction nor exponent becomes a Python `int` (`intNum`); otherwise a
float, represented exactly as `mantissa * 10 ^ exp10` while finite and by
`floatInf` once the literal's magnitude overflows the IEEE double range.
`floatNaN`/`floatInf` also arise from the `NaN`/`Infinity`/`-Infinity`
constants that Python accepts by default. -/
inductive JValue where
  | null : JValue
  | bool (b : Bool) : JValue
  | intNum (n : Int) : JValue
  | floatNum (mantissa : Int) (exp10 : Int) : JValue
  | floatInf (neg : Bool) : JValue
  | floatNaN : JValue
  | str (s : String) : JValue
  | arr (elems : List JValue) : JValue
  | obj (fields : List (String × JValue)) : JValue
deriving BEq

def isJsonWs (c : Char) : Bool :=
  c = ' ' ∨ c = Char.ofNat 9 ∨ c = Char.ofNat 10 ∨ c = Char.ofNat 13

def skipWs : List Char → List Char
  | [] => []
  | c :: cs => if isJsonWs c then skipWs cs else c :: cs

def dropPrefixChars : List Char → List Char → Option (List Char)
  | [], cs => some cs
  | _ :: _, [] => none
  | p :: ps, c :: cs => if c = p then dropPrefixChars ps cs else none

def hexDigit (c : Char) : Option Nat :=
  if '0' ≤ c ∧ c ≤ '9' then some (c.toNat - 48)
  else if 'a' ≤ c ∧ c ≤ 'f' then some (c.toNat - 87)
  else if 'A' ≤ c ∧ c ≤ 'F' then some (c.toNat - 55)
  else none

/-- Body of a JSON string literal (after the opening quote). Unicode escape
surrogate pairing is not modelled. -/
def parseStringChars (fuel : Nat) (cs : List Char) (acc : List Char) :
    Option (String × List Char) :=
  match fuel with
  | 0 => none
  | fuel + 1 =>
    match cs with
    | [] => none
    | c :: rest =>
      if c = dquote then some (String.mk acc.reverse, rest)
      else if c = bslash then
        match rest with
        | [] => none
        | e :: rest2 =>
          if e = dquote then parseStringChars fuel rest2 (dquote :: acc)
          else if e = bslash then parseStringChars fuel rest2 (bslash :: acc)
          else if e = '/' then parseStringChars fuel rest2 ('/' :: acc)
          else if e = 'b' then parseStringChars fuel rest2 (Char.ofNat 8 :: acc)
          else if e = 'f' then parseStringChars fuel rest2 (Char.ofNat 12 :: acc)
          else if e = 'n' then parseStringChars fuel rest2 (Char.ofNat 10 :: acc)
          else if e = 'r' then parseStringChars fuel rest2 (Char.ofNat 13 :: acc)
          else if e = 't' then parseStringChars fuel rest2 (Char.ofNat 9 :: acc)
          else if e = 'u' then
            match rest2 with
            | h1 :: h2 :: h3 :: h4 :: rest3 =>
              match hexDigit h1, hexDigit h2, hexDigit h3, hexDigit h4 with
              | some a, some b, some c2, some d =>
                parseStringChars fuel rest3 (Char.ofNat (((a * 16 + b) * 16 + c2) * 16 + d) :: acc)
              | _, _, _, _ => none
            | _ => none
          else none
      else if c.toNat < 32 then none
      else parseStringChars fuel rest (c :: acc)

/-- The smallest magnitude at which `float(<literal>)` overflows to
infinity: the midpoint `2^1024 - 2^970` between the largest finite double
`2^1024 - 2^971` and `2^1024`, which round-to-nearest-even sends to
infinity. -/
def dblOverflowThreshold : Nat := 2 ^ 1024 - 2 ^ 970

/-- Does the exact decimal value `m * 10 ^ e10` overflow the double
range? Decided by exact integer comparison against the threshold. -/
def floatOverflows (m : Int) (e10 : Int) : Bool :=
  if 0 ≤ e10 then dblOverflowThreshold ≤ m.natAbs * 10 ^ e10.toNat
  else dblOverflowThreshold * 10 ^ (-e10).toNat ≤ m.natAbs

/-- JSON number literal per RFC 8259 (`-? int frac? exp?`). -/
def parseNumber (cs : List Char) : Option (JValue × List Char) :=
  let signed : Bool × List Char :=
    match cs with
    | c :: rest => if c = '-' then (true, rest) else (false, cs)
    | [] => (false, cs)
  let neg := signed.1
  match signed.2 with
  | [] => none
  | d :: rest =>
    if ! d.isDigit then none
    else
      let intPart : List Char × List Char :=
        if d = '0' then ([d], rest)
        else (d :: rest.takeWhile Char.isDigit, rest.dropWhile Char.isDigit)
      let intDs := intPart.1
      let cs2 := intPart.2
      let fracPart : List Char × List Char × Bool :=
        match cs2 with
        | p :: r2 =>
          if p = '.' then
            let ds := r2.takeWhile Char.isDigit
            if ds.isEmpty then ([], cs2, false)
            else (ds, r2.dropWhile Char.isDigit, true)
          else ([], cs2, false)
        | [] => ([], cs2, false)
      let fracDs := fracPart.1
      let cs3 := fracPart.2.1
      let hasFrac := fracPart.2.2
      let expPart : Bool × List Char × List Char × Bool :=
        match cs3 with
        | e :: r3 =>
          if e = 'e' ∨ e = 'E' then
            match r3 with
            | s :: r4 =>
              if s = '+' ∨ s = '-' then
                let ds := r4.takeWhile Char.isDigit
                if ds.isEmpty then (false, [], cs3, false)
                else (s = '-', ds, r4.dropWhile Char.isDigit, true)
              else
                let ds := r3.takeWhile Char.isDigit
                if ds.isEmpty then (false, [], cs3, false)
                else (false, ds, r3.dropWhile Char.isDigit, true)
            | [] => (false, [], cs3, false)
          else (false, [], cs3, false)
        | [] => (false, [], cs3, false)
      let expNeg := expPart.1
      let expDs := expPart.2.1
      let cs4 := expPart.2.2.1
      let hasExp := expPart.2.2.2
      if ! hasFrac ∧ ! hasExp then
        let v : Int := Int.ofNat (natOfDigits intDs)
        some (.intNum (if neg then -v else v), cs4)
      else
        let mant : Int := Int.ofNat (natOfDigits (intDs ++ fracDs))
        let mantI : Int := if neg then -mant else mant
        let e10 : Int :=
          (if hasExp then
            (if expNeg then -(Int.ofNat (natOfDigits expDs)) else Int.ofNat (natOfDigits expDs))
          else 0) - Int.ofNat fracDs.length
        if floatOverflows mantI e10 then some (.floatInf neg, cs4)
        else some (.floatNum mantI e10, cs4)

/-- Parsing mode: a plain value, or the body of a container under
construction (fuel-indexed continuation-free encoding of the mutual
recursion in a recursive-descent JSON reader). -/
inductive PMode where
  | value : PMode
  | objBody (acc : List (String × JValue)) : PMode
  | arrBody (acc : List JValue) : PMode

def parseJ (fuel : Nat) (mode : PMode) (cs : List Char) : Option (JValue × List Char) :=
  match fuel with
  | 0 => none
  | fuel + 1 =>
    match mode with
    | .value =>
      let cs1 := skipWs cs
      match cs1 with
      | [] => none
      | c :: rest =>
        if c = lbrace then parseJ fuel (.objBody []) rest
        else if c = lbrack then parseJ fuel (.arrBody []) rest
        else if c = dquote then
          (parseStringChars (rest.length + 1) rest []).map (fun p => (.str p.1, p.2))
        else
          match dropPrefixChars "true".data cs1 with
          | some r => some (.bool true, r)
          | none =>
            match dropPrefixChars "false".data cs1 with
            | some r => some (.bool false, r)
            | none =>
              match dropPrefixChars "null".data cs1 with
              | some r => some (.null, r)
              | none =>
                match dropPrefixChars "NaN".data cs1 with
                | some r => some (.floatNaN, r)
                | none =>
                  match dropPrefixChars "Infinity".data cs1 with
                  | some r => some (.floatInf false, r)
                  | none =>
                    match dropPrefixChars "-Infinity".data cs1 with
                    | some r => some (.floatInf true, r)
                    | none => parseNumber cs1
    | .objBody acc =>
      let cs1 := skipWs cs
      match cs1 with
      | [] => none
      | c :: rest =>
        if c = rbrace then some (.obj acc, rest)
        else
          let afterComma : Option (List Char) :=
            if acc.isEmpty then some cs1
            else if c = ',' then some rest else none
          match afterComma with
          | none => none
          | some cs2 =>
            match skipWs cs2 with
            | [] => none
            | k :: rest3 =>
              if k = dquote then
                match parseStringChars (rest3.length + 1) rest3 [] with
                | some (key, rest4) =>
                  match skipWs rest4 with
                  | [] => none
                  | col :: rest6 =>
                    if col = ':' then
                      match parseJ fuel .value rest6 with
                      | some (v, rest7) => parseJ fuel (.objBody (acc ++ [(key, v)])) rest7
                      | none => none
                    else none
                | none => none
              else none
    | .arrBody acc =>
      let cs1 := skipWs cs
      match cs1 with
      | [] => none
      | c :: rest =>
        if c = rbrack then some (.arr acc, rest)
        else
          let cs2opt : Option (List Char) :=
            if acc.isEmpty then some cs1
            else if c = ',' then some rest else none
          match cs2opt with
          | none => none
          | some cs2 =>
            match parseJ fuel .value cs2 with
            | some (v, rest7) => parseJ fuel (.arrBody (acc ++ [v])) rest7
            | none => none

/-- `json.loads` on a character list: one value, then only trailing
whitespace (otherwise Python raises "Extra data"). -/
def jsonLoads (cs : List Char) : Option JValue :=
  match parseJ (2 * cs.length + 2) .value cs with
  | some (v, rest) => if (skipWs rest).isEmpty then some v else none
  | none => none

/-- Lookup in a parsed object with Python dict semantics: the last binding
of a duplicated key wins (later assignments overwrite earlier ones). -/
def jlookup (fs : List (String × JValue)) (k : String) : Option JValue :=
  fs.foldl (fun acc p => if p.1 = k then some p.2 else acc) none

/-! ### Python `int(...)` coercion -/

def isPySpace (c : Char) : Bool :=
  c.toNat = 32 ∨ (9 ≤ c.toNat ∧ c.toNat ≤ 13)

def pow10 : Nat → Nat
  | 0 => 1
  | n + 1 => 10 * pow10 n

/-- Integer division truncating toward zero, as Python `int(float)` does. -/
def truncDiv (m : Int) (d : Nat) : Int :=
  if 0 ≤ m then Int.ofNat (m.toNat / d) else -(Int.ofNat ((-m).toNat / d))

def floatTrunc (m : Int) (e : Int) : Int :=
  if 0 ≤ e then m * Int.ofNat (pow10 e.toNat) else truncDiv m (pow10 (-e).toNat)

/-- Python `int(str)`: strips surrounding whitespace, optional sign, then
decimal digits (digit-group underscores are not modelled). -/
def pyIntOfString (s : String) : Option Int :=
  let cs := ((s.data.dropWhile isPySpace).reverse.dropWhile isPySpace).reverse
  match cs with
  | [] => none
  | c :: rest =>
    let signed : Bool × List Char :=
      if c = '-' then (true, rest) else if c = '+' then (false, rest) else (false, cs)
    let ds := signed.2
    if ds.isEmpty then none
    else if ds.all Char.isDigit then
      some (if signed.1 then -(Int.ofNat (natOfDigits ds)) else Int.ofNat (natOfDigits ds))
    else none

/-- Python `int(x)` on a decoded JSON value, for the paths on which `int`
either returns or raises an exception the surrounding code catches:
`None`, lists and dicts raise `TypeError`; unparseable strings and `nan`
raise `ValueError`; all of those are caught, so `none` stands for any of
them. An infinite float also yields `none` here, but that case really
raises `OverflowError` — see `intCoerceRaises`. -/
def intCoerce : JValue → Option Int
  | .intNum n => some n
  | .bool b => some (if b then 1 else 0)
  | .floatNum m e => some (floatTrunc m e)
  | .floatInf _ => none
  | .floatNaN => none
  | .str s => pyIntOfString s
  | .null => none
  | .arr _ => none
  | .obj _ => none

/-- Does `int(x)` raise an exception that NEITHER except clause of
`_calculate_priority_score` catches? Only `int(float('inf'))` /
`int(float('-inf'))` do: `OverflowError` is absent from both
`(json.JSONDecodeError, KeyError, TypeError, ValueError)` and
`(RequestException, KeyError, ValueError, IndexError)`, so it propagates
out of the scoring routine. -/
def intCoerceRaises : JValue → Bool
  | .floatInf _ => true
  | _ => false

/-! ### Score extraction (`TaskSerializer._calculate_priority_score`,
robust-parsing block, serializers.py lines 128-142) -/

/-- The inner `try` block: search for a brace-delimited span (greedy regex),
`json.loads` it, index `['score']`, coerce with `int(...)`. Any failure
(`JSONDecodeError`, `KeyError`, `TypeError`, `ValueError`) yields `none`. -/
def scoreJsonAttempt (cs : List Char) : Option Int :=
  match spanGreedy lbrace rbrace cs with
  | none => none
  | some sp =>
    match jsonLoads sp with
    | some (.obj fs) =>
      match jlookup fs "score" with
      | some v => intCoerce v
      | none => none
    | _ => none

/-- `extract_score`: JSON-object attempt first, then the first run of
decimal digits anywhere in the text; `Except.error ()` is the
`ExtractionFailed` outcome (`ValueError` raised past both attempts). -/
def extract_score (s : String) : Except Unit Int :=
  match scoreJsonAttempt s.data with
  | some n => Except.ok n
  | none =>
    match firstDigitRun s.data with
    | some ds => Except.ok (Int.ofNat (natOfDigits ds))
    | none => Except.error ()

/-- Does the robust-parsing block raise an uncaught `OverflowError`? True
exactly when the greedy brace span parses as an object whose `score` value
is an infinite float (`("score": 1e400)` or `("score": Infinity)` in
braces): `int(inf)` then raises before any digit fallback can run, and no
except clause catches it. Where this is true, `extract_score`'s value does
not describe the program (which raises instead). -/
def scoreAttemptRaises (cs : List Char) : Bool :=
  match spanGreedy lbrace rbrace cs with
  | none => false
  | some sp =>
    match jsonLoads sp with
    | some (.obj fs) =>
      match jlookup fs "score" with
      | some v => intCoerceRaises v
      | none => false
    | _ => false

def extractScoreRaises (s : String) : Bool := scoreAttemptRaises s.data

/-- The score extraction algorithm exactly as the claim describes it:
identical to `extract_score` except that the brace span is located
**non-greedily** (first opener to the first closer after it). Defined from
the claim's words, for comparison against the code. -/
def extractScoreClaim (s : String) : Except Unit Int :=
  let fromJson : Option Int :=
    match spanNonGreedy lbrace rbrace s.data with
    | none => none
    | some sp =>
      match jsonLoads sp with
      | some (.obj fs) =>
        match jlookup fs "score" with
        | some v => intCoerce v
        | none => none
      | _ => none
  match fromJson with
  | some n => Except.ok n
  | none =>
    match firstDigitRun s.data with
    | some ds => Except.ok (Int.ofNat (natOfDigits ds))
    | none => Except.error ()

/-! ### Task-array extraction (views.py lines 248-253) -/

inductive ArrayExtract where
  | noSpan : ArrayExtract
  | parseFail : ArrayExtract
  | parsed (tasks : List JValue) : ArrayExtract
deriving BEq

/-- The synthesis view's array extraction: greedy bracket span; no span is
the "no new tasks suggested" outcome; a span that fails `json.loads` raises
and is caught by the view's blanket handler (`parseFail`). -/
def extract_task_array (s : String) : ArrayExtract :=
  match spanGreedy lbrack rbrack s.data with
  | none => .noSpan
  | some sp =>
    match jsonLoads sp with
    | some (.arr xs) => .parsed xs
    | _ => .parseFail

/-- Task-array extraction exactly as the claim describes it: non-greedy
span, and an absent span yields an empty draft sequence. Defined from the
claim's words, for comparison against the code. -/
def extractTaskArrayClaim (s : String) : ArrayExtract :=
  match spanNonGreedy lbrack rbrack s.data with
  | none => .parsed []
  | some sp =>
    match jsonLoads sp with
    | some (.arr xs) => .parsed xs
    | _ => .parseFail

/-! ### Data model (todo_app/models.py) -/

/-- A persisted task row (`tasks` table). `createdAt` is a logical
timestamp (larger = more recent); `deadline` is the ISO text of the
datetime column. -/
structure Task where
  id : Nat
  userId : Nat
  title : String
  description : Option String
  categoryId : Option Nat
  priorityScore : Option Int
  priorityLabel : Option String
  deadline : Option String
  status : String
  createdAt : Nat
deriving DecidableEq

/-- A persisted context entry (`context_entries` table); `insights` is the
JSONField, modelled as flat string annotations. -/
structure ContextEntry where
  id : Nat
  userId : Nat
  content : String
  sourceType : String
  insights : List (String × String)
  createdAt : Nat
deriving DecidableEq

structure Category where
  id : Nat
  userId : Nat
  name : String
  usageCount : Nat
  createdAt : Nat
deriving DecidableEq

/-- The authoritative relational store, plus a fresh-id/clock supply for
executable creation. -/
structure DB where
  tasks : List Task
  contexts : List ContextEntry
  categories : List Category
  nextId : Nat
  clock : Nat
deriving DecidableEq

/-! ### Cache store (django cache shared by views.py and signals.py)

The string keys of the source embed a fixed-length user UUID and a purpose
suffix (`user_{id}_tasks_for_processing`, `user_{id}_task_list_{params}`,
...), so distinct structured keys below correspond exactly to distinct key
strings. -/

inductive CachePurpose where
  | tasksForProcessing : CachePurpose
  | contextsForProcessing : CachePurpose
  | taskList (params : String) : CachePurpose
  | contextList (params : String) : CachePurpose
deriving DecidableEq

structure CacheKey where
  userId : Nat
  purpose : CachePurpose
deriving DecidableEq

structure CacheEntry where
  key : CacheKey
  value : String
  ttl : Nat
deriving DecidableEq

/-- The key/value store with TTL; `supportsDeletePattern` models
`hasattr(cache, 'delete_pattern')` (django-redis vs other backends). -/
structure Cache where
  entries : List CacheEntry
  supportsDeletePattern : Bool
deriving DecidableEq

def cacheGet (c : Cache) (k : CacheKey) : Option String :=
  (c.entries.find? (fun e => e.key = k)).map (fun e => e.value)

def cacheEntry? (c : Cache) (k : CacheKey) : Option CacheEntry :=
  c.entries.find? (fun e => e.key = k)

def cacheSet (c : Cache) (k : CacheKey) (v : String) (ttl : Nat) : Cache :=
  { c with entries := ⟨k, v, ttl⟩ :: c.entries.filter (fun e => ¬ (e.key = k)) }

def cacheDelete (c : Cache) (k : CacheKey) : Cache :=
  { c with entries := c.entries.filter (fun e => ¬ (e.key = k)) }

def isTaskListKey (u : Nat) (k : CacheKey) : Bool :=
  (k.userId == u) && (match k.purpose with | .taskList _ => true | _ => false)

def isContextListKey (u : Nat) (k : CacheKey) : Bool :=
  (k.userId == u) && (match k.purpose with | .contextList _ => true | _ => false)

/-- `cache.delete_pattern(f"user_{user_id}_task_list_*")`, a no-op when the
backend lacks pattern deletion. -/
def deleteTaskListPattern (c : Cache) (u : Nat) : Cache :=
  if c.supportsDeletePattern then
    { c with entries := c.entries.filter (fun e => ¬ isTaskListKey u e.key) }
  else c

def deleteContextListPattern (c : Cache) (u : Nat) : Cache :=
  if c.supportsDeletePattern then
    { c with entries := c.entries.filter (fun e => ¬ isContextListKey u e.key) }
  else c

/-! ### Cache invalidation (todo_app/signals.py) -/

/-- `clear_task_caches`: drop the user's tasks-for-processing snapshot key,
then pattern-delete the user's task list-view keys. -/
def clear_task_caches (u : Nat) (c : Cache) : Cache :=
  deleteTaskListPattern (cacheDelete c ⟨u, .tasksForProcessing⟩) u

/-- `clear_context_caches`: same for the context snapshot and list keys. -/
def clear_context_caches (u : Nat) (c : Cache) : Cache :=
  deleteContextListPattern (cacheDelete c ⟨u, .contextsForProcessing⟩) u

structure Store where
  db : DB
  cache : Cache
deriving DecidableEq

def upsertTask (ts : List Task) (t : Task) : List Task :=
  if ts.any (fun x => x.id = t.id) then ts.map (fun x => if x.id = t.id then t else x)
  else ts ++ [t]

/-- Saving a task row: persists it and fires the `post_save` receiver
`clear_task_cache_on_save`. -/
def taskSave (st : Store) (t : Task) : Store :=
  ⟨{ st.db with tasks := upsertTask st.db.tasks t }, clear_task_caches t.userId st.cache⟩

/-- Deleting a task row fires `clear_task_cache_on_delete`. -/
def taskDelete (st : Store) (t : Task) : Store :=
  ⟨{ st.db with tasks := st.db.tasks.filter (fun x => ¬ (x.id = t.id)) },
    clear_task_caches t.userId st.cache⟩

def upsertContext (cs : List ContextEntry) (x : ContextEntry) : List ContextEntry :=
  if cs.any (fun y => y.id = x.id) then cs.map (fun y => if y.id = x.id then x else y)
  else cs ++ [x]

/-- Saving a context entry fires `clear_context_cache_on_save`. -/
def contextSave (st : Store) (x : ContextEntry) : Store :=
  ⟨{ st.db with contexts := upsertContext st.db.contexts x },
    clear_context_caches x.userId st.cache⟩

/-- Deleting a context entry fires `clear_context_cache_on_delete`. -/
def contextDelete (st : Store) (x : ContextEntry) : Store :=
  ⟨{ st.db with contexts := st.db.contexts.filter (fun y => ¬ (y.id = x.id)) },
    clear_context_caches x.userId st.cache⟩

/-! ### Serializer field validation (TaskSerializer, serializers.py)

`read_only_fields` contains `priority_score` (besides `id`, `created_at`,
`updated_at`, `category_name`), so deserialization never consults those
keys of the payload; `create()` additionally pops `priority_score`. That is
modelled by the validators below simply never reading those keys. -/

def statusChoices : List String := ["Pending", "In Progress", "Completed"]

def priorityChoices : List String := ["Low", "Medium", "High"]

/-- DRF `CharField.to_internal_value`: accepts strings and stringifies
numbers, rejects booleans, `None`, lists and dicts (float stringification
is not modelled; no claim exercises it). -/
def charFieldValue : JValue → Option String
  | .str s => some s
  | .intNum n => some (toString n)
  | _ => none

/-- `title`: required model CharField, max_length 255, blank not allowed. -/
def titleField (fs : List (String × JValue)) : Option String :=
  match jlookup fs "title" with
  | none => none
  | some .null => none
  | some v =>
    match charFieldValue v with
    | some s => if s.length = 0 ∨ 255 < s.length then none else some s
    | none => none

/-- `description`: TextField(blank=True, null=True): optional, nullable,
blank allowed. -/
def descriptionField (fs : List (String × JValue)) : Option (Option String) :=
  match jlookup fs "description" with
  | none => some none
  | some .null => some none
  | some v =>
    match charFieldValue v with
    | some s => some (some s)
    | none => none

/-- `category`: declared `CharField(allow_null=True, required=False)` (blank
not allowed), then `validate_category` maps whitespace-only values to
`None`. -/
def categoryField (fs : List (String × JValue)) : Option (Option String) :=
  match jlookup fs "category" with
  | none => some none
  | some .null => some none
  | some v =>
    match charFieldValue v with
    | some s =>
      if s.length = 0 then none
      else if s.trim.length = 0 then some none
      else some (some s)
    | none => none

/-- `priority_label`: ChoiceField over the model choices, nullable,
optional. -/
def priorityLabelField (fs : List (String × JValue)) : Option (Option String) :=
  match jlookup fs "priority_label" with
  | none => some none
  | some .null => some none
  | some (.str s) => if priorityChoices.contains s then some (some s) else none
  | some _ => none

/-- `deadline`: DateTimeField, nullable, optional (datetime-format
validation abstracted: any string accepted, carried as ISO text). -/
def deadlineField (fs : List (String × JValue)) : Option (Option String) :=
  match jlookup fs "deadline" with
  | none => some none
  | some .null => some none
  | some (.str s) => some (some s)
  | some _ => none

/-- `status`: ChoiceField with model default `Pending` when absent. -/
def statusField (fs : List (String × JValue)) : Option String :=
  match jlookup fs "status" with
  | none => some "Pending"
  | some (.str s) => if statusChoices.contains s then some s else none
  | some _ => none

/-- Validated creation payload (`validated_data` after `create()` pops
`category` and `priority_score`). -/
structure ValidatedTaskData where
  title : String
  description : Option String
  category : Option String
  priorityLabel : Option String
  deadline : Option String
  status : String
deriving DecidableEq

def validateFields (fs : List (String × JValue)) : Option ValidatedTaskData :=
  match titleField fs, descriptionField fs, categoryField fs, priorityLabelField fs,
      deadlineField fs, statusField fs with
  | some t, some d, some c, some pl, some dl, some s => some ⟨t, d, c, pl, dl, s⟩
  | _, _, _, _, _, _ => none

/-- `TaskSerializer(data=...).is_valid()` for creation: non-object payloads
are invalid, field dictionaries are validated field by field. -/
def validateDraft : JValue → Option ValidatedTaskData
  | .obj fs => validateFields fs
  | _ => none

/-! ### Priority scoring (TaskSerializer._calculate_priority_score) -/

inductive UpstreamFailure where
  | upstreamUnavailable : UpstreamFailure
  | upstreamError : UpstreamFailure
  | malformedUpstreamResponse : UpstreamFailure
deriving DecidableEq

/-- The static fallback of the outer `except` clause:
`priority_map = {'High': 85, 'Medium': 50, 'Low': 15}` and
`priority_map.get(task_data.get('priority_label'), 50)`. -/
def priorityFallback : Option String → Int
  | some l => if l = "High" then 85 else if l = "Medium" then 50 else if l = "Low" then 15 else 50
  | none => 50

/-- `status__in=['Pending', 'In Progress']` for a given user. -/
def isActiveFor (u : Nat) (t : Task) : Bool :=
  (t.userId == u) && (t.status == "Pending" || t.status == "In Progress")

def activeTasks (db : DB) (u : Nat) : List Task :=
  db.tasks.filter (isActiveFor u)

/-- Descending `priority_score` comparison used by
`order_by('-priority_score')`; a missing score sorts first, matching
PostgreSQL's default NULLS FIRST for descending order. -/
def scoreGeB (a b : Task) : Bool :=
  match a.priorityScore, b.priorityScore with
  | none, _ => true
  | some _, none => false
  | some m, some n => n ≤ m

def ScoreGe (a b : Task) : Prop := scoreGeB a b = true

instance : DecidableRel ScoreGe := fun a b =>
  inferInstanceAs (Decidable (scoreGeB a b = true))

instance : IsTotal Task ScoreGe where
  total a b := by
    unfold ScoreGe scoreGeB
    cases a.priorityScore with
    | none => simp
    | some m =>
      cases b.priorityScore with
      | none => simp
      | some n =>
        simp only [decide_eq_true_eq]
        omega

instance : IsTrans Task ScoreGe where
  trans a b c hab hbc := by
    unfold ScoreGe scoreGeB at hab hbc ⊢
    cases ha : a.priorityScore with
    | none => rfl
    | some m =>
      cases hb : b.priorityScore with
      | none => simp [ha, hb] at hab
      | some n =>
        cases hc : c.priorityScore with
        | none => simp [hb, hc] at hbc
        | some p =>
          simp [ha, hb] at hab
          simp [hb, hc] at hbc
          simp
          omega

/-- Descending `created_at` comparison (the model Meta default ordering
`['-created_at']`). -/
def createdGeB (a b : Task) : Bool := b.createdAt ≤ a.createdAt

def CreatedGe (a b : Task) : Prop := createdGeB a b = true

instance : DecidableRel CreatedGe := fun a b =>
  inferInstanceAs (Decidable (createdGeB a b = true))

/-- `Task.objects.filter(user_id=..., status__in=['Pending', 'In Progress'])
.order_by('-priority_score')[:10]` (serializers.py lines 78-81). -/
def top10ByScore (db : DB) (u : Nat) : List Task :=
  (List.insertionSort ScoreGe (activeTasks db u)).take 10

def optStrRepr : Option String → String
  | none => "None"
  | some s => s

def optIntRepr : Option Int → String
  | none => "None"
  | some n => toString n

/-- One bullet of the prompt's existing-task summary (line 87). -/
def taskBullet (t : Task) : String :=
  "- Title: " ++ String.mk [dquote] ++ t.title ++ String.mk [dquote] ++
    ", Priority: " ++ optStrRepr t.priorityLabel ++
    ", Current Score: " ++ optIntRepr t.priorityScore

/-- `existing_tasks_str`: joined bullet lines for the fetched tasks, or the
fixed sentence when the queryset is empty (lines 83-88). This string is
interpolated into the scoring prompt as its context section. -/
def existingTasksStr (db : DB) (u : Nat) : String :=
  let sel := top10ByScore db u
  if sel.isEmpty then "The user has no other active tasks."
  else String.intercalate (String.mk [Char.ofNat 10]) (sel.map taskBullet)

/-- The context section exactly as claim C6 describes it: take the 10
most-recent active tasks, order those by descending priority score, render
the same bullets. Defined from the claim's words, for comparison. -/
def claimContextSection (db : DB) (u : Nat) : String :=
  let sel := List.insertionSort ScoreGe
    ((List.insertionSort CreatedGe (activeTasks db u)).take 10)
  if sel.isEmpty then "The user has no other active tasks."
  else String.intercalate (String.mk [Char.ofNat 10]) (sel.map taskBullet)

/-- `_calculate_priority_score`: the scoring prompt (embedding
`existingTasksStr db u` and the candidate's fields) is posted to the
completion endpoint; `resp` is the oracle for that call. A failed call
(network, non-2xx, malformed envelope) or a failed extraction resolves to
the static fallback; a successful extraction is returned as-is. The
function is total: the `except` clause catches `RequestException`,
`KeyError`, `ValueError` (hence `JSONDecodeError` and the extraction
failure) and `IndexError`. -/
def calculatePriorityScore (_db : DB) (_u : Nat) (td : ValidatedTaskData)
    (resp : Except UpstreamFailure String) : Int :=
  match resp with
  | .error _ => priorityFallback td.priorityLabel
  | .ok content =>
    match extract_score content with
    | .ok n => n
    | .error _ => priorityFallback td.priorityLabel

/-- Does the scoring routine raise to its caller? Only via the uncaught
`OverflowError` of `extractScoreRaises`; every other failure is caught and
resolved to the fallback. -/
def calculateScoreRaises (resp : Except UpstreamFailure String) : Bool :=
  match resp with
  | .error _ => false
  | .ok content => extractScoreRaises content

/-- The failure hypothesis of spec §4.3 step 5: one of `UpstreamUnavailable`,
`UpstreamError`, `MalformedUpstreamResponse`, or `ExtractionFailed`. The
uncaught-`OverflowError` path is NOT one of the four kinds (the routine
raises instead of falling back there), so it is excluded. -/
def scoringFails (resp : Except UpstreamFailure String) : Prop :=
  match resp with
  | .error _ => True
  | .ok content => extract_score content = .error () ∧ extractScoreRaises content = false

/-! ### Task creation and update (TaskSerializer.create / .update) -/

/-- `Category.objects.get_or_create(user_id=..., name=..., defaults=...)`
plus the usage-count bump: an existing row gets `usage_count += 1`, a fresh
row starts at 1. -/
def getOrCreateCategory (db : DB) (u : Nat) (name : String) : Nat × DB :=
  match db.categories.find? (fun c => c.userId == u && c.name == name) with
  | some cat =>
    (cat.id,
      { db with categories :=
          db.categories.map (fun c => if c.id = cat.id then { c with usageCount := c.usageCount + 1 } else c) })
  | none =>
    (db.nextId,
      { db with
          categories := db.categories ++ [⟨db.nextId, u, name, 1, db.clock⟩],
          nextId := db.nextId + 1 })

/-- `TaskSerializer.create`: pops any client `priority_score` (already
excluded by `read_only_fields`), computes the score via the LLM call,
resolves the category, persists the task, and (through the `post_save`
signal) clears the user's task caches. -/
def serializerCreate (st : Store) (u : Nat) (td : ValidatedTaskData)
    (resp : Except UpstreamFailure String) : Task × Store :=
  let score := calculatePriorityScore st.db u td resp
  let catRes : Option Nat × DB :=
    match td.category with
    | some name =>
      let r := getOrCreateCategory st.db u name
      (some r.1, r.2)
    | none => (none, st.db)
  let db1 := catRes.2
  let t : Task :=
    { id := db1.nextId, userId := u, title := td.title, description := td.description,
      categoryId := catRes.1, priorityScore := some score, priorityLabel := td.priorityLabel,
      deadline := td.deadline, status := td.status, createdAt := db1.clock }
  let db2 := { db1 with tasks := db1.tasks ++ [t], nextId := db1.nextId + 1, clock := db1.clock + 1 }
  (t, ⟨db2, clear_task_caches u st.cache⟩)

/-- The full client-facing creation pipeline: deserialize/validate the raw
payload (read-only fields, `priority_score` included, are never read), then
run `create`. `none` is a validation error response. -/
def clientCreateTask (st : Store) (u : Nat) (payload : JValue)
    (resp : Except UpstreamFailure String) : Option (Task × Store) :=
  (validateDraft payload).map (fun td => serializerCreate st u td resp)

/-- Validated partial-update payload: `none` = field not provided,
`some v` = provided with validated value `v`. `priority_score` is read-only
and has no slot at all. -/
structure TaskUpdateData where
  title : Option String
  description : Option (Option String)
  category : Option (Option String)
  priorityLabel : Option (Option String)
  deadline : Option (Option String)
  status : Option String
deriving DecidableEq

def updTitleField (fs : List (String × JValue)) : Option (Option String) :=
  match jlookup fs "title" with
  | none => some none
  | some .null => none
  | some v =>
    match charFieldValue v with
    | some s => if s.length = 0 ∨ 255 < s.length then none else some (some s)
    | none => none

def updDescriptionField (fs : List (String × JValue)) : Option (Option (Option String)) :=
  match jlookup fs "description" with
  | none => some none
  | some .null => some (some none)
  | some v =>
    match charFieldValue v with
    | some s => some (some (some s))
    | none => none

def updCategoryField (fs : List (String × JValue)) : Option (Option (Option String)) :=
  match jlookup fs "category" with
  | none => some none
  | some .null => some (some none)
  | some v =>
    match charFieldValue v with
    | some s =>
      if s.length = 0 then none
      else if s.trim.length = 0 then some (some none)
      else some (some (some s))
    | none => none

def updPriorityLabelField (fs : List (String × JValue)) : Option (Option (Option String)) :=
  match jlookup fs "priority_label" with
  | none => some none
  | some .null => some (some none)
  | some (.str s) => if priorityChoices.contains s then some (some (some s)) else none
  | some _ => none

def updDeadlineField (fs : List (String × JValue)) : Option (Option (Option String)) :=
  match jlookup fs "deadline" with
  | none => some none
  | some .null => some (some none)
  | some (.str s) => some (some (some s))
  | some _ => none

def updStatusField (fs : List (String × JValue)) : Option (Option String) :=
  match jlookup fs "status" with
  | none => some none
  | some (.str s) => if statusChoices.contains s then some (some s) else none
  | some _ => none

/-- `TaskSerializer(data=..., partial=True).is_valid()` for PATCH updates;
again `priority_score` is read-only and never consulted. -/
def validateUpdate : JValue → Option TaskUpdateData
  | .obj fs =>
    match updTitleField fs, updDescriptionField fs, updCategoryField fs,
        updPriorityLabelField fs, updDeadlineField fs, updStatusField fs with
    | some t, some d, some c, some pl, some dl, some s => some ⟨t, d, c, pl, dl, s⟩
    | _, _, _, _, _, _ => none
  | _ => none

/-- `TaskSerializer.update`: pops `category` (a provided name is resolved
via get-or-create; a provided null/blank leaves the category untouched,
because `update` only acts when the popped value `is not None`), then
`super().update` assigns each remaining validated field. `priority_score`
is never in the validated data, so it is carried over from the instance. -/
def serializerUpdate (st : Store) (inst : Task) (ud : TaskUpdateData) : Task × Store :=
  let catRes : Option Nat × DB :=
    match ud.category with
    | some (some name) =>
      let r := getOrCreateCategory st.db inst.userId name
      (some r.1, r.2)
    | _ => (inst.categoryId, st.db)
  let t : Task :=
    { inst with
        title := ud.title.getD inst.title,
        description := match ud.description with | some v => v | none => inst.description,
        categoryId := catRes.1,
        priorityLabel := match ud.priorityLabel with | some v => v | none => inst.priorityLabel,
        deadline := match ud.deadline with | some v => v | none => inst.deadline,
        status := ud.status.getD inst.status }
  let db2 := { catRes.2 with tasks := upsertTask catRes.2.tasks t }
  (t, ⟨db2, clear_task_caches inst.userId st.cache⟩)

/-- The client-facing update pipeline (validation, then `update`). -/
def clientUpdateTask (st : Store) (inst : Task) (payload : JValue) :
    Option (Task × Store) :=
  (validateUpdate payload).map (fun ud => serializerUpdate st inst ud)

/-! ### Snapshot serialization (`json.dumps([...], indent=2)` in
process_contexts_for_tasks, views.py lines 177-180 and 188-191) -/

def hexChar (n : Nat) : Char :=
  if n < 10 then Char.ofNat (48 + n) else Char.ofNat (87 + n)

def hex4 (n : Nat) : List Char :=
  [hexChar (n / 4096 % 16), hexChar (n / 256 % 16), hexChar (n / 16 % 16), hexChar (n % 16)]

/-- Python `json.dumps` escaping with the default `ensure_ascii=True`
(astral characters would need surrogate pairs, not modelled). -/
def escapeChar (c : Char) : List Char :=
  if c = dquote then [bslash, dquote]
  else if c = bslash then [bslash, bslash]
  else if c.toNat = 10 then [bslash, 'n']
  else if c.toNat = 13 then [bslash, 'r']
  else if c.toNat = 9 then [bslash, 't']
  else if c.toNat = 8 then [bslash, 'b']
  else if c.toNat = 12 then [bslash, 'f']
  else if c.toNat < 32 ∨ 126 < c.toNat then [bslash, 'u'] ++ hex4 c.toNat
  else [c]

def jstr (s : String) : String :=
  String.mk ([dquote] ++ (s.data.map escapeChar).flatten ++ [dquote])

def jnullable : Option String → String
  | none => "null"
  | some s => jstr s

def newline : String := String.mk [Char.ofNat 10]

/-- `json.dumps(items, indent=2)` for a list of pre-rendered items. -/
def dumpsJsonArr (items : List String) : String :=
  match items with
  | [] => "[]"
  | _ => "[" ++ newline ++ String.intercalate ("," ++ newline) items ++ newline ++ "]"

/-- One serialized task of the tasks-for-processing snapshot:
`{"title", "description", "status", "deadline"}`. -/
def taskProcItem (t : Task) : String :=
  "  " ++ String.mk [lbrace] ++ newline ++
  "    " ++ jstr "title" ++ ": " ++ jstr t.title ++ "," ++ newline ++
  "    " ++ jstr "description" ++ ": " ++ jnullable t.description ++ "," ++ newline ++
  "    " ++ jstr "status" ++ ": " ++ jstr t.status ++ "," ++ newline ++
  "    " ++ jstr "deadline" ++ ": " ++ jnullable t.deadline ++ newline ++
  "  " ++ String.mk [rbrace]

/-- `tasks_str`: active tasks of the user (default Meta ordering
`-created_at` applies to the unordered filter), serialized with indent 2. -/
def tasksForProcessingStr (db : DB) (u : Nat) : String :=
  dumpsJsonArr ((List.insertionSort CreatedGe (activeTasks db u)).map taskProcItem)

def ctxCreatedGeB (a b : ContextEntry) : Bool := b.createdAt ≤ a.createdAt

def CtxCreatedGe (a b : ContextEntry) : Prop := ctxCreatedGeB a b = true

instance : DecidableRel CtxCreatedGe := fun a b =>
  inferInstanceAs (Decidable (ctxCreatedGeB a b = true))

def insightsStr (kvs : List (String × String)) : String :=
  match kvs with
  | [] => String.mk [lbrace, rbrace]
  | _ =>
    String.mk [lbrace] ++ newline ++
      String.intercalate ("," ++ newline)
        (kvs.map (fun p => "      " ++ jstr p.1 ++ ": " ++ jstr p.2)) ++
      newline ++ "    " ++ String.mk [rbrace]

def ctxProcItem (x : ContextEntry) : String :=
  "  " ++ String.mk [lbrace] ++ newline ++
  "    " ++ jstr "content" ++ ": " ++ jstr x.content ++ "," ++ newline ++
  "    " ++ jstr "source_type" ++ ": " ++ jstr x.sourceType ++ "," ++ newline ++
  "    " ++ jstr "insights" ++ ": " ++ insightsStr x.insights ++ "," ++ newline ++
  "    " ++ jstr "recorded_at" ++ ": " ++ jstr (toString x.createdAt) ++ newline ++
  "  " ++ String.mk [rbrace]

/-- `contexts_str`: the user's 20 most-recent context entries
(`order_by('-created_at')[:20]`), serialized with indent 2. -/
def contextsForProcessingStr (db : DB) (u : Nat) : String :=
  dumpsJsonArr
    (((List.insertionSort CtxCreatedGe (db.contexts.filter (fun x => x.userId == u))).take 20).map
      ctxProcItem)

/-! ### Read-through snapshot resolution (views.py lines 165-194) -/

/-- `cache.get` as consumed by `if not tasks_str:`: an absent key or a
cached empty string both count as a miss (Python falsiness). -/
def truthyGet (c : Cache) (k : CacheKey) : Option String :=
  match cacheGet c k with
  | some s => if s = "" then none else some s
  | none => none

structure SnapRes where
  tasksStr : String
  contextsStr : String
  cache : Cache
  queries : Nat
deriving DecidableEq

/-- The two read-through lookups of `process_contexts_for_tasks`: on a miss
the authoritative store is queried (counted in `queries`), serialized, and
written back with a 1-hour TTL; on a hit the cached text is used as-is. -/
def resolveSnapshots (db : DB) (c0 : Cache) (u : Nat) : SnapRes :=
  let tkey : CacheKey := ⟨u, .tasksForProcessing⟩
  let ckey : CacheKey := ⟨u, .contextsForProcessing⟩
  let step1 : String × Cache × Nat :=
    match truthyGet c0 tkey with
    | some s => (s, c0, 0)
    | none =>
      let s := tasksForProcessingStr db u
      (s, cacheSet c0 tkey s 3600, 1)
  let step2 : String × Cache × Nat :=
    match truthyGet step1.2.1 ckey with
    | some s => (s, step1.2.1, 0)
    | none =>
      let s := contextsForProcessingStr db u
      (s, cacheSet step1.2.1 ckey s 3600, 1)
  ⟨step1.1, step2.1, step2.2.1, step1.2.2 + step2.2.2⟩

/-! ### The context-processing endpoint (views.py lines 153-275) -/

/-- The response of `process_contexts_for_tasks`:
`errorResp msg` is `{"error": msg}` with HTTP 500;
`noTasks count details` is `{"created_count": count, "details": details}`
with HTTP 200; `created count tasks` is
`{"created_count": count, "created_tasks": [...]}` with HTTP 201;
`forbidden` is a permission rejection by the framework. -/
inductive ProcResponse where
  | errorResp (msg : String) : ProcResponse
  | noTasks (count : Nat) (details : String) : ProcResponse
  | created (count : Nat) (tasks : List Task) : ProcResponse
  | forbidden : ProcResponse
deriving DecidableEq

def statusCode : ProcResponse → Nat
  | .errorResp _ => 500
  | .noTasks _ _ => 200
  | .created _ _ => 201
  | .forbidden => 403

/-- Does the response have the `{"created_count", "created_tasks"}` body
shape? -/
def isCreatedShape : ProcResponse → Bool
  | .created _ _ => true
  | _ => false

/-- The per-draft creation loop (views.py lines 260-270): invalid drafts
are skipped with a log line; each valid draft goes through the full
serializer `create` (scoring call `scoreResps k` for the k-th created
task), which also fires the cache-clearing signal. -/
def createLoop (st : Store) (u : Nat) (drafts : List JValue)
    (scoreResps : Nat → Except UpstreamFailure String) (k : Nat) :
    Store × List Task × Nat :=
  match drafts with
  | [] => (st, [], 0)
  | d :: ds =>
    match validateDraft d with
    | none => createLoop st u ds scoreResps k
    | some td =>
      let created := serializerCreate st u td (scoreResps k)
      let rest := createLoop created.2 u ds scoreResps (k + 1)
      (rest.1, created.1 :: rest.2.1, rest.2.2 + 1)

/-- `process_contexts_for_tasks(request, user_id)` after the UUID check:
resolve both snapshots read-through, build the synthesis prompt from them,
post it (oracle `resp`, timeout 45s), extract the bracketed task array, and
create tasks per draft. Any upstream failure or array-parse failure is
caught by the blanket `except` and surfaces as the single AI-communication
error. Returns (response, new store, authoritative-store query count). -/
def process_contexts_for_tasks (st : Store) (u : Nat)
    (resp : Except UpstreamFailure String)
    (scoreResps : Nat → Except UpstreamFailure String) :
    ProcResponse × Store × Nat :=
  let snap := resolveSnapshots st.db st.cache u
  let st1 : Store := ⟨st.db, snap.cache⟩
  match resp with
  | .error _ => (.errorResp "Failed to communicate with the AI model.", st1, snap.queries)
  | .ok content =>
    match extract_task_array content with
    | .noSpan => (.noTasks 0 "No new tasks suggested by AI.", st1, snap.queries)
    | .parseFail => (.errorResp "Failed to communicate with the AI model.", st1, snap.queries)
    | .parsed drafts =>
      let r := createLoop st1 u drafts scoreResps 0
      (.created r.2.2 r.2.1, r.1, snap.queries)

/-- The synthesis-step failure hypothesis of spec §4.4 step 4 / §7: the
completion call failed (unavailable, non-2xx, malformed envelope) or the
bracketed span failed to parse as JSON. -/
def synthesisFails (resp : Except UpstreamFailure String) : Prop :=
  match resp with
  | .error _ => True
  | .ok content => extract_task_array content = .parseFail

/-! ### HTTP dispatch of the endpoint (urls.py, `@permission_classes([AllowAny])`) -/

/-- An incoming request as DRF hands it to the view: `user` is the
authenticated identity when valid credentials were presented, `none` for an
anonymous caller; `authHeader` is the raw Authorization header. -/
structure HttpRequest where
  user : Option Nat
  authHeader : Option String
deriving DecidableEq

/-- `AllowAny.has_permission` is constantly true. -/
def allowAnyPermission (_ : HttpRequest) : Bool := true

/-- DRF dispatch for the endpoint: the permission gate, then the view body,
which never reads `request`. -/
def processContextsDispatch (req : HttpRequest) (u : Nat) (st : Store)
    (resp : Except UpstreamFailure String)
    (scoreResps : Nat → Except UpstreamFailure String) :
    ProcResponse × Store × Nat :=
  if allowAnyPermission req then process_contexts_for_tasks st u resp scoreResps
  else (.forbidden, st, 0)

/-! ### Helper lemmas: find?, filter, cache operations -/

theorem find?_filter_eq_none {A : Type} (l : List A) (p q : A → Bool)
    (h : ∀ e, q e = true → p e = false) : (l.filter p).find? q = none := by
  induction l with
  | nil => rfl
  | cons e l ih =>
    rw [List.filter_cons]
    by_cases hp : p e = true
    · rw [if_pos hp, List.find?_cons_of_neg]
      · exact ih
      · intro hq
        rw [h e hq] at hp
        exact Bool.false_ne_true hp
    · rw [if_neg hp]
      exact ih

theorem find?_filter_of_keep {A : Type} (l : List A) (p q : A → Bool)
    (h : ∀ e, q e = true → p e = true) : (l.filter p).find? q = l.find? q := by
  induction l with
  | nil => rfl
  | cons e l ih =>
    by_cases hq : q e = true
    · rw [List.filter_cons, if_pos (h e hq), List.find?_cons_of_pos _ hq,
        List.find?_cons_of_pos _ hq]
    · by_cases hp : p e = true
      · rw [List.filter_cons, if_pos hp, List.find?_cons_of_neg _ hq,
          List.find?_cons_of_neg _ hq]
        exact ih
      · rw [List.filter_cons, if_neg hp, List.find?_cons_of_neg _ hq]
        exact ih

theorem find?_filter_none_mono {A : Type} (l : List A) (p q : A → Bool)
    (h : l.find? q = none) : (l.filter p).find? q = none := by
  induction l with
  | nil => rfl
  | cons e l ih =>
    by_cases hq : q e = true
    · rw [List.find?_cons_of_pos _ hq] at h
      exact absurd h (by simp)
    · rw [List.find?_cons_of_neg _ hq] at h
      rw [List.filter_cons]
      by_cases hp : p e = true
      · rw [if_pos hp, List.find?_cons_of_neg _ hq]
        exact ih h
      · rw [if_neg hp]
        exact ih h

theorem cacheGet_delete_self (c : Cache) (k : CacheKey) :
    cacheGet (cacheDelete c k) k = none := by
  unfold cacheGet cacheDelete
  rw [find?_filter_eq_none]
  · rfl
  · intro e he
    simp only [decide_eq_true_eq] at he
    simp [he]

theorem cacheGet_delete_ne (c : Cache) (k k2 : CacheKey) (h : k2 ≠ k) :
    cacheGet (cacheDelete c k) k2 = cacheGet c k2 := by
  unfold cacheGet cacheDelete
  rw [find?_filter_of_keep]
  intro e he
  simp only [decide_eq_true_eq] at he ⊢
  rw [he]
  exact h

theorem cacheGet_set_self (c : Cache) (k : CacheKey) (v : String) (ttl : Nat) :
    cacheGet (cacheSet c k v ttl) k = some v := by
  unfold cacheGet cacheSet
  rw [List.find?_cons_of_pos]
  · rfl
  · simp

theorem cacheGet_set_ne (c : Cache) (k k2 : CacheKey) (v : String) (ttl : Nat)
    (h : k2 ≠ k) : cacheGet (cacheSet c k v ttl) k2 = cacheGet c k2 := by
  unfold cacheGet cacheSet
  rw [List.find?_cons_of_neg]
  · rw [find?_filter_of_keep]
    intro e he
    simp only [decide_eq_true_eq] at he ⊢
    rw [he]
    exact h
  · simp only [decide_eq_true_eq]
    exact fun hk => h hk.symm

theorem cacheEntry?_set_self (c : Cache) (k : CacheKey) (v : String) (ttl : Nat) :
    cacheEntry? (cacheSet c k v ttl) k = some ⟨k, v, ttl⟩ := by
  unfold cacheEntry? cacheSet
  rw [List.find?_cons_of_pos]
  simp

theorem cacheEntry?_set_ne (c : Cache) (k k2 : CacheKey) (v : String) (ttl : Nat)
    (h : k2 ≠ k) : cacheEntry? (cacheSet c k v ttl) k2 = cacheEntry? c k2 := by
  unfold cacheEntry? cacheSet
  rw [List.find?_cons_of_neg]
  · rw [find?_filter_of_keep]
    intro e he
    simp only [decide_eq_true_eq] at he ⊢
    rw [he]
    exact h
  · simp only [decide_eq_true_eq]
    exact fun hk => h hk.symm

theorem clear_task_caches_self (u : Nat) (c : Cache) :
    cacheGet (clear_task_caches u c) ⟨u, .tasksForProcessing⟩ = none := by
  have h1 : ((cacheDelete c ⟨u, .tasksForProcessing⟩).entries.find?
      (fun e => decide (e.key = (⟨u, CachePurpose.tasksForProcessing⟩ : CacheKey)))) = none := by
    have h2 := cacheGet_delete_self c ⟨u, .tasksForProcessing⟩
    unfold cacheGet at h2
    exact Option.map_eq_none'.mp h2
  unfold clear_task_caches deleteTaskListPattern
  by_cases hs : (cacheDelete c ⟨u, .tasksForProcessing⟩).supportsDeletePattern = true
  · rw [if_pos hs]
    unfold cacheGet
    dsimp only
    rw [find?_filter_none_mono _ _ _ h1]
    rfl
  · rw [if_neg hs]
    exact cacheGet_delete_self c ⟨u, .tasksForProcessing⟩

theorem clear_task_caches_frame (u : Nat) (c : Cache) (k : CacheKey)
    (h : k.userId ≠ u) : cacheGet (clear_task_caches u c) k = cacheGet c k := by
  have hne : k ≠ ⟨u, CachePurpose.tasksForProcessing⟩ := by
    intro he
    exact h (by rw [he])
  unfold clear_task_caches deleteTaskListPattern
  by_cases hs : (cacheDelete c ⟨u, .tasksForProcessing⟩).supportsDeletePattern = true
  · rw [if_pos hs]
    unfold cacheGet
    dsimp only
    rw [find?_filter_of_keep]
    · exact cacheGet_delete_ne c _ k hne
    · intro e he
      simp only [decide_eq_true_eq] at he
      rw [he]
      simp [isTaskListKey, h]
  · rw [if_neg hs]
    exact cacheGet_delete_ne c _ k hne

theorem clear_context_caches_self (u : Nat) (c : Cache) :
    cacheGet (clear_context_caches u c) ⟨u, .contextsForProcessing⟩ = none := by
  have h1 : ((cacheDelete c ⟨u, .contextsForProcessing⟩).entries.find?
      (fun e => decide (e.key = (⟨u, CachePurpose.contextsForProcessing⟩ : CacheKey)))) = none := by
    have h2 := cacheGet_delete_self c ⟨u, .contextsForProcessing⟩
    unfold cacheGet at h2
    exact Option.map_eq_none'.mp h2
  unfold clear_context_caches deleteContextListPattern
  by_cases hs : (cacheDelete c ⟨u, .contextsForProcessing⟩).supportsDeletePattern = true
  · rw [if_pos hs]
    unfold cacheGet
    dsimp only
    rw [find?_filter_none_mono _ _ _ h1]
    rfl
  · rw [if_neg hs]
    exact cacheGet_delete_self c ⟨u, .contextsForProcessing⟩

theorem clear_context_caches_frame (u : Nat) (c : Cache) (k : CacheKey)
    (h : k.userId ≠ u) : cacheGet (clear_context_caches u c) k = cacheGet c k := by
  have hne : k ≠ ⟨u, CachePurpose.contextsForProcessing⟩ := by
    intro he
    exact h (by rw [he])
  unfold clear_context_caches deleteContextListPattern
  by_cases hs : (cacheDelete c ⟨u, .contextsForProcessing⟩).supportsDeletePattern = true
  · rw [if_pos hs]
    unfold cacheGet
    dsimp only
    rw [find?_filter_of_keep]
    · exact cacheGet_delete_ne c _ k hne
    · intro e he
      simp only [decide_eq_true_eq] at he
      rw [he]
      simp [isContextListKey, h]
  · rw [if_neg hs]
    exact cacheGet_delete_ne c _ k hne

/-! ### Shared helper lemmas for the scoring claims -/

/-- Any of the four error kinds resolves the score to the static
label-keyed fallback. -/
theorem calcScore_eq_fallback (db : DB) (u : Nat) (td : ValidatedTaskData)
    (resp : Except UpstreamFailure String) (h : scoringFails resp) :
    calculatePriorityScore db u td resp = priorityFallback td.priorityLabel := by
  cases resp with
  | error e => rfl
  | ok content =>
    have hx : extract_score content = Except.error () := h.1
    show (match extract_score content with
      | Except.ok n => n
      | Except.error _ => priorityFallback td.priorityLabel) = priorityFallback td.priorityLabel
    rw [hx]

theorem jlookup_append_single (fs : List (String × JValue)) (k a : String) (v : JValue) :
    jlookup (fs ++ [(a, v)]) k = if a = k then some v else jlookup fs k := by
  unfold jlookup
  rw [List.foldl_append]
  rfl

/-! ### Claim theorems -/

/-- C1: for every task candidate with priority_label in
High/Medium/Low/unset and every user, if the completion call or the score
extraction fails with any of the four error kinds (UpstreamUnavailable,
UpstreamError, MalformedUpstreamResponse, ExtractionFailed), the
priority-scoring routine returns exactly 85, 50, 15 and 50 respectively,
and — being a total function whose `except` clause covers all four kinds —
never raises to its caller. -/
theorem scorer_error_fallback_exact (db : DB) (u : Nat) (td : ValidatedTaskData)
    (resp : Except UpstreamFailure String) (h : scoringFails resp) :
    (td.priorityLabel = some "High" → calculatePriorityScore db u td resp = 85) ∧
    (td.priorityLabel = some "Medium" → calculatePriorityScore db u td resp = 50) ∧
    (td.priorityLabel = some "Low" → calculatePriorityScore db u td resp = 15) ∧
    (td.priorityLabel = none → calculatePriorityScore db u td resp = 50) := by
  rw [calcScore_eq_fallback db u td resp h]
  refine ⟨fun hl => ?_, fun hl => ?_, fun hl => ?_, fun hl => ?_⟩ <;> rw [hl] <;> decide

/-- Witness for C1 at a concrete Low-label candidate and an unavailable
upstream. -/
theorem scorer_error_fallback_exact_witness :
    calculatePriorityScore ⟨[], [], [], 0, 0⟩ 1 ⟨"t", none, none, some "Low", none, "Pending"⟩
      (Except.error .upstreamUnavailable) = 15 :=
  (scorer_error_fallback_exact ⟨[], [], [], 0, 0⟩ 1
    ⟨"t", none, none, some "Low", none, "Pending"⟩ (Except.error .upstreamUnavailable)
    trivial).2.2.1 rfl

def ob : String := String.mk [lbrace]

def cb : String := String.mk [rbrace]

/-- C2 counterexample: the claim says the scoring routine always returns an
integer in [1,100], but on the raw text `("score": 500)` (in braces) the
code returns the extracted 500 unclamped. -/
theorem score_range_counterexample :
    calculatePriorityScore ⟨[], [], [], 0, 0⟩ 1 ⟨"t", none, none, none, none, "Pending"⟩
      (Except.ok (ob ++ "\"score\": 500" ++ cb)) = 500 ∧
    ¬ ((1 : Int) ≤ 500 ∧ (500 : Int) ≤ 100) :=
  ⟨rfl, by decide⟩

set_option maxRecDepth 100000 in
/-- C2 amended: on any of the four taxonomized failure kinds the scoring
routine returns the static fallback 85, 50 or 15 — hence within [1,100] —
and a successfully extracted score is returned as-is, possibly outside
[1,100]. The routine is NOT exception-free on every raw text, however: a
reply whose `score` is a float literal overflowing to infinity (`1e400`) or
the `Infinity` constant makes `int()` raise `OverflowError`, which neither
except clause catches, so the routine raises to its caller; those raising
texts lie outside the four failure kinds. -/
theorem score_range_amended (db : DB) (u : Nat) (td : ValidatedTaskData)
    (resp : Except UpstreamFailure String) :
    (scoringFails resp →
      (calculatePriorityScore db u td resp = 85 ∨ calculatePriorityScore db u td resp = 50 ∨
        calculatePriorityScore db u td resp = 15) ∧
      1 ≤ calculatePriorityScore db u td resp ∧ calculatePriorityScore db u td resp ≤ 100) ∧
    (∀ content n, resp = Except.ok content → extractScoreRaises content = false →
      extract_score content = Except.ok n → calculatePriorityScore db u td resp = n) ∧
    calculateScoreRaises (Except.ok (ob ++ "\"score\": 1e400" ++ cb)) = true ∧
    calculateScoreRaises (Except.ok (ob ++ "\"score\": Infinity" ++ cb)) = true ∧
    ¬ scoringFails (Except.ok (ob ++ "\"score\": Infinity" ++ cb)) := by
  refine ⟨?_, ?_, ?_, ?_, ?_⟩
  · intro h
    rw [calcScore_eq_fallback db u td resp h]
    have hd : priorityFallback td.priorityLabel = 85 ∨ priorityFallback td.priorityLabel = 50 ∨
        priorityFallback td.priorityLabel = 15 := by
      cases td.priorityLabel with
      | none => simp [priorityFallback]
      | some l =>
        simp only [priorityFallback]
        by_cases h1 : l = "High"
        · rw [if_pos h1]
          exact Or.inl rfl
        · rw [if_neg h1]
          by_cases h2 : l = "Medium"
          · rw [if_pos h2]
            exact Or.inr (Or.inl rfl)
          · rw [if_neg h2]
            by_cases h3 : l = "Low"
            · rw [if_pos h3]
              exact Or.inr (Or.inr rfl)
            · rw [if_neg h3]
              exact Or.inr (Or.inl rfl)
    refine ⟨hd, ?_, ?_⟩ <;>
      · rcases hd with he | he | he <;> rw [he] <;> decide
  · intro content n hr hnr hx
    subst hr
    show (match extract_score content with
      | Except.ok n => n
      | Except.error _ => priorityFallback td.priorityLabel) = n
    rw [hx]
  · rfl
  · rfl
  · intro h
    have h2 := h.2
    exact Bool.noConfusion h2

/-- Witness for C2 amended: a successful extraction is passed through, and
a failing extraction lands in the fallback range. -/
theorem score_range_amended_witness :
    calculatePriorityScore ⟨[], [], [], 0, 0⟩ 1 ⟨"t", none, none, none, none, "Pending"⟩
      (Except.ok "42") = 42 ∧
    1 ≤ calculatePriorityScore ⟨[], [], [], 0, 0⟩ 1 ⟨"t", none, none, none, none, "Pending"⟩
        (Except.ok "no digits at all") ∧
    calculatePriorityScore ⟨[], [], [], 0, 0⟩ 1 ⟨"t", none, none, none, none, "Pending"⟩
        (Except.ok "no digits at all") ≤ 100 :=
  ⟨(score_range_amended ⟨[], [], [], 0, 0⟩ 1 ⟨"t", none, none, none, none, "Pending"⟩
      (Except.ok "42")).2.1 "42" 42 rfl rfl rfl,
    ((score_range_amended ⟨[], [], [], 0, 0⟩ 1 ⟨"t", none, none, none, none, "Pending"⟩
      (Except.ok "no digits at all")).1 ⟨rfl, rfl⟩).2⟩

/-- C5: if the synthesis-step completion call fails (unavailable, non-2xx,
malformed body) or the bracketed span fails to parse as JSON, context
processing returns the single explicit AI-communication error (HTTP 500)
and the authoritative store is unchanged — no partial batch of tasks. -/
theorem synthesis_failure_is_atomic (st : Store) (u : Nat)
    (resp : Except UpstreamFailure String)
    (scoreResps : Nat → Except UpstreamFailure String) (h : synthesisFails resp) :
    (process_contexts_for_tasks st u resp scoreResps).1 =
      ProcResponse.errorResp "Failed to communicate with the AI model." ∧
    (process_contexts_for_tasks st u resp scoreResps).2.1.db = st.db := by
  cases resp with
  | error e => exact ⟨rfl, rfl⟩
  | ok content =>
    have hx : extract_task_array content = ArrayExtract.parseFail := h
    unfold process_contexts_for_tasks
    dsimp only
    rw [hx]
    exact ⟨rfl, rfl⟩

/-- Witness for C5 at an empty store and an unreachable upstream. -/
theorem synthesis_failure_is_atomic_witness :
    (process_contexts_for_tasks ⟨⟨[], [], [], 0, 0⟩, ⟨[], true⟩⟩ 1
        (Except.error .upstreamUnavailable) (fun _ => Except.error .upstreamUnavailable)).1 =
      ProcResponse.errorResp "Failed to communicate with the AI model." ∧
    (process_contexts_for_tasks ⟨⟨[], [], [], 0, 0⟩, ⟨[], true⟩⟩ 1
        (Except.error .upstreamUnavailable) (fun _ => Except.error .upstreamUnavailable)).2.1.db =
      (⟨⟨[], [], [], 0, 0⟩, ⟨[], true⟩⟩ : Store).db :=
  synthesis_failure_is_atomic ⟨⟨[], [], [], 0, 0⟩, ⟨[], true⟩⟩ 1
    (Except.error .upstreamUnavailable) (fun _ => Except.error .upstreamUnavailable) trivial

/-- C10: the context-processing endpoint is declared `AllowAny` and its
body never reads the request, so two requests naming the same user over the
same data state — one with valid credentials, one anonymous — execute
identically and produce the same result. -/
theorem endpoint_credential_independence (req1 req2 : HttpRequest) (u : Nat) (st : Store)
    (resp : Except UpstreamFailure String)
    (scoreResps : Nat → Except UpstreamFailure String) :
    processContextsDispatch req1 u st resp scoreResps =
      processContextsDispatch req2 u st resp scoreResps := rfl

/-- Helper: `update` carries the instance's priority_score through
unchanged (the field is read-only and never in the validated data). -/
theorem serializerUpdate_score (st : Store) (inst : Task) (ud : TaskUpdateData) :
    (serializerUpdate st inst ud).1.priorityScore = inst.priorityScore := rfl

/-- C7: priority_score is a derived field: a client-supplied value is
discarded by deserialization (the pipeline's result is identical whether or
not the payload carries `priority_score`); creation always stores the
scorer's result (so every task persisted through this pipeline has a
score); and updates through this pipeline never change an existing task's
priority_score. -/
theorem priority_score_is_derived (st : Store) (u : Nat) :
    (∀ (fields : List (String × JValue)) (v : JValue) (resp : Except UpstreamFailure String),
      clientCreateTask st u (JValue.obj (fields ++ [("priority_score", v)])) resp =
        clientCreateTask st u (JValue.obj fields) resp) ∧
    (∀ (td : ValidatedTaskData) (resp : Except UpstreamFailure String),
      (serializerCreate st u td resp).1.priorityScore =
        some (calculatePriorityScore st.db u td resp)) ∧
    (∀ (inst : Task) (ud : TaskUpdateData),
      (serializerUpdate st inst ud).1.priorityScore = inst.priorityScore) ∧
    (∀ (inst : Task) (payload : JValue) (t : Task) (stp : Store),
      clientUpdateTask st inst payload = some (t, stp) →
        t.priorityScore = inst.priorityScore) := by
  refine ⟨?_, ?_, ?_, ?_⟩
  · intro fields v resp
    have hv : validateFields (fields ++ [("priority_score", v)]) = validateFields fields := by
      unfold validateFields titleField descriptionField categoryField priorityLabelField
        deadlineField statusField
      simp only [jlookup_append_single]
      rfl
    unfold clientCreateTask validateDraft
    dsimp only
    rw [hv]
  · intro td resp
    rfl
  · intro inst ud
    exact serializerUpdate_score st inst ud
  · intro inst payload t stp h
    unfold clientUpdateTask at h
    cases hv : validateUpdate payload with
    | none =>
      rw [hv] at h
      exact absurd h (by simp)
    | some ud =>
      rw [hv] at h
      simp only [Option.map_some'] at h
      have h2 := Option.some.inj h
      have ht : t = (serializerUpdate st inst ud).1 := by
        rw [h2]
      rw [ht]
      exact serializerUpdate_score st inst ud

/-- Witness for C7: a concrete payload carrying `priority_score: 1`
creates a task whose score is the scorer's 42, not the client's 1; and a
concrete update leaves the score untouched. -/
theorem priority_score_is_derived_witness :
    clientCreateTask ⟨⟨[], [], [], 0, 0⟩, ⟨[], true⟩⟩ 1
        (JValue.obj ([("title", JValue.str "t")] ++ [("priority_score", JValue.intNum 1)]))
        (Except.ok "42") =
      clientCreateTask ⟨⟨[], [], [], 0, 0⟩, ⟨[], true⟩⟩ 1
        (JValue.obj [("title", JValue.str "t")]) (Except.ok "42") ∧
    (⟨5, 1, "t", none, none, some 77, none, none, "Pending", 0⟩ : Task).priorityScore = some 77 := by
  constructor
  · exact (priority_score_is_derived ⟨⟨[], [], [], 0, 0⟩, ⟨[], true⟩⟩ 1).1
      [("title", JValue.str "t")] (JValue.intNum 1) (Except.ok "42")
  · exact (priority_score_is_derived ⟨⟨[], [], [], 0, 0⟩, ⟨[], true⟩⟩ 1).2.2.2
      ⟨5, 1, "t", none, none, some 77, none, none, "Pending", 0⟩ (JValue.obj []) _ _ rfl

/-! ### Helper lemmas for the caching claims -/

theorem truthyGet_set_self (c : Cache) (k : CacheKey) (v : String) (ttl : Nat)
    (hv : v ≠ "") : truthyGet (cacheSet c k v ttl) k = some v := by
  unfold truthyGet
  rw [cacheGet_set_self]
  dsimp only
  rw [if_neg hv]

theorem truthyGet_set_ne (c : Cache) (k k2 : CacheKey) (v : String) (ttl : Nat)
    (h : k2 ≠ k) : truthyGet (cacheSet c k v ttl) k2 = truthyGet c k2 := by
  unfold truthyGet
  rw [cacheGet_set_ne c k k2 v ttl h]

theorem key_purpose_ne (u u2 : Nat) :
    (⟨u, CachePurpose.tasksForProcessing⟩ : CacheKey) ≠
      ⟨u2, CachePurpose.contextsForProcessing⟩ := by
  intro h
  exact CachePurpose.noConfusion (congrArg CacheKey.purpose h)

theorem key_purpose_ne2 (u u2 : Nat) :
    (⟨u, CachePurpose.contextsForProcessing⟩ : CacheKey) ≠
      ⟨u2, CachePurpose.tasksForProcessing⟩ := by
  intro h
  exact CachePurpose.noConfusion (congrArg CacheKey.purpose h)

theorem dumpsJsonArr_ne_empty (items : List String) : dumpsJsonArr items ≠ "" := by
  cases items with
  | nil => decide
  | cons a l =>
    unfold dumpsJsonArr
    intro h
    have hl := congrArg String.length h
    simp only [String.length_append] at hl
    rw [show ("[" : String).length = 1 from rfl, show ("]" : String).length = 1 from rfl,
      show newline.length = 1 from rfl, show ("" : String).length = 0 from rfl] at hl
    omega

theorem tasksStr_ne_empty (db : DB) (u : Nat) : tasksForProcessingStr db u ≠ "" :=
  dumpsJsonArr_ne_empty _

theorem contextsStr_ne_empty (db : DB) (u : Nat) : contextsForProcessingStr db u ≠ "" :=
  dumpsJsonArr_ne_empty _

theorem resolveSnapshots_queries_zero_of_hits (db : DB) (c : Cache) (u : Nat)
    (h1 : ∃ v, truthyGet c ⟨u, .tasksForProcessing⟩ = some v)
    (h2 : ∃ v, truthyGet c ⟨u, .contextsForProcessing⟩ = some v) :
    (resolveSnapshots db c u).queries = 0 := by
  obtain ⟨v1, h1⟩ := h1
  obtain ⟨v2, h2⟩ := h2
  unfold resolveSnapshots
  dsimp only
  rw [h1]
  dsimp only
  rw [h2]
  rfl

theorem resolveSnapshots_queries_pos_of_tasks_miss (db : DB) (c : Cache) (u : Nat)
    (h : truthyGet c ⟨u, .tasksForProcessing⟩ = none) :
    1 ≤ (resolveSnapshots db c u).queries := by
  unfold resolveSnapshots
  dsimp only
  rw [h]
  dsimp only
  cases h2 : truthyGet (cacheSet c ⟨u, .tasksForProcessing⟩ (tasksForProcessingStr db u) 3600)
      ⟨u, .contextsForProcessing⟩ <;> dsimp only <;> omega

theorem resolveSnapshots_queries_pos_of_ctx_miss (db : DB) (c : Cache) (u : Nat)
    (h : truthyGet c ⟨u, .contextsForProcessing⟩ = none) :
    1 ≤ (resolveSnapshots db c u).queries := by
  unfold resolveSnapshots
  dsimp only
  cases h1 : truthyGet c ⟨u, .tasksForProcessing⟩ with
  | some s =>
    dsimp only
    rw [h]
    dsimp only
    omega
  | none =>
    dsimp only
    rw [truthyGet_set_ne _ _ _ _ _ (key_purpose_ne2 u u), h]
    dsimp only
    omega

/-- C8: any create, update or delete of a Task (resp. Context Entry)
belonging to user U deletes U's tasks-for-processing (resp.
contexts-for-processing) snapshot key — so the next processing fetch for U
re-queries the authoritative store — while every cache entry keyed to any
other user is left unchanged. -/
theorem write_invalidates_snapshot_key (st : Store) (t : Task) (x : ContextEntry) :
    cacheGet (taskSave st t).cache ⟨t.userId, .tasksForProcessing⟩ = none ∧
    cacheGet (taskDelete st t).cache ⟨t.userId, .tasksForProcessing⟩ = none ∧
    cacheGet (contextSave st x).cache ⟨x.userId, .contextsForProcessing⟩ = none ∧
    cacheGet (contextDelete st x).cache ⟨x.userId, .contextsForProcessing⟩ = none ∧
    (∀ k : CacheKey, k.userId ≠ t.userId →
      cacheGet (taskSave st t).cache k = cacheGet st.cache k ∧
      cacheGet (taskDelete st t).cache k = cacheGet st.cache k) ∧
    (∀ k : CacheKey, k.userId ≠ x.userId →
      cacheGet (contextSave st x).cache k = cacheGet st.cache k ∧
      cacheGet (contextDelete st x).cache k = cacheGet st.cache k) ∧
    1 ≤ (resolveSnapshots (taskSave st t).db (taskSave st t).cache t.userId).queries ∧
    1 ≤ (resolveSnapshots (contextSave st x).db (contextSave st x).cache x.userId).queries := by
  refine ⟨clear_task_caches_self t.userId st.cache, clear_task_caches_self t.userId st.cache,
    clear_context_caches_self x.userId st.cache, clear_context_caches_self x.userId st.cache,
    fun k hk => ⟨clear_task_caches_frame t.userId st.cache k hk,
      clear_task_caches_frame t.userId st.cache k hk⟩,
    fun k hk => ⟨clear_context_caches_frame x.userId st.cache k hk,
      clear_context_caches_frame x.userId st.cache k hk⟩, ?_, ?_⟩
  · apply resolveSnapshots_queries_pos_of_tasks_miss
    unfold truthyGet
    rw [show (taskSave st t).cache = clear_task_caches t.userId st.cache from rfl,
      clear_task_caches_self]
  · apply resolveSnapshots_queries_pos_of_ctx_miss
    unfold truthyGet
    rw [show (contextSave st x).cache = clear_context_caches x.userId st.cache from rfl,
      clear_context_caches_self]

/-- Witness for C8 at a concrete one-entry cache. -/
theorem write_invalidates_snapshot_key_witness :
    cacheGet
        (taskSave
          ⟨⟨[], [], [], 0, 0⟩,
            ⟨[⟨⟨1, .tasksForProcessing⟩, "x", 3600⟩, ⟨⟨2, .tasksForProcessing⟩, "y", 3600⟩], true⟩⟩
          ⟨7, 1, "t", none, none, some 5, none, none, "Pending", 0⟩).cache
      ⟨1, .tasksForProcessing⟩ = none ∧
    cacheGet
        (taskSave
          ⟨⟨[], [], [], 0, 0⟩,
            ⟨[⟨⟨1, .tasksForProcessing⟩, "x", 3600⟩, ⟨⟨2, .tasksForProcessing⟩, "y", 3600⟩], true⟩⟩
          ⟨7, 1, "t", none, none, some 5, none, none, "Pending", 0⟩).cache
      ⟨2, .tasksForProcessing⟩ = some "y" := by
  constructor
  · exact (write_invalidates_snapshot_key _
      ⟨7, 1, "t", none, none, some 5, none, none, "Pending", 0⟩
      ⟨0, 1, "c", "Note", [], 0⟩).1
  · exact ((write_invalidates_snapshot_key _
      ⟨7, 1, "t", none, none, some 5, none, none, "Pending", 0⟩
      ⟨0, 1, "c", "Note", [], 0⟩).2.2.2.2.1 ⟨2, .tasksForProcessing⟩ (by decide)).1.trans rfl

/-- C9: each snapshot is resolved read-through — a hit uses the cached text
as-is; a miss queries the store, serializes, and caches the text with a
1-hour (3600s) TTL — and a second resolution straight after the first, over
an unchanged data set, issues no query against the authoritative store. -/
theorem snapshot_read_through_idempotent (db : DB) (c : Cache) (u : Nat) :
    (∀ v, truthyGet c ⟨u, .tasksForProcessing⟩ = some v →
      (resolveSnapshots db c u).tasksStr = v) ∧
    (truthyGet c ⟨u, .tasksForProcessing⟩ = none →
      (resolveSnapshots db c u).tasksStr = tasksForProcessingStr db u ∧
      cacheEntry? (resolveSnapshots db c u).cache ⟨u, .tasksForProcessing⟩ =
        some ⟨⟨u, .tasksForProcessing⟩, tasksForProcessingStr db u, 3600⟩) ∧
    (∀ v, truthyGet c ⟨u, .contextsForProcessing⟩ = some v →
      (resolveSnapshots db c u).contextsStr = v) ∧
    (truthyGet c ⟨u, .contextsForProcessing⟩ = none →
      (resolveSnapshots db c u).contextsStr = contextsForProcessingStr db u ∧
      cacheEntry? (resolveSnapshots db c u).cache ⟨u, .contextsForProcessing⟩ =
        some ⟨⟨u, .contextsForProcessing⟩, contextsForProcessingStr db u, 3600⟩) ∧
    (resolveSnapshots db (resolveSnapshots db c u).cache u).queries = 0 := by
  cases ht : truthyGet c ⟨u, .tasksForProcessing⟩ with
  | some sT =>
    cases hx : truthyGet c ⟨u, .contextsForProcessing⟩ with
    | some sX =>
      have hr : resolveSnapshots db c u = ⟨sT, sX, c, 0⟩ := by
        unfold resolveSnapshots
        dsimp only
        rw [ht]
        dsimp only
        rw [hx]
        rfl
      refine ⟨?_, ?_, ?_, ?_, ?_⟩
      · intro v hv
        rw [hr]
        exact Option.some.inj hv
      · intro h0
        exact Option.noConfusion h0
      · intro v hv
        rw [hr]
        exact Option.some.inj hv
      · intro h0
        exact Option.noConfusion h0
      · rw [hr]
        exact resolveSnapshots_queries_zero_of_hits db c u ⟨sT, ht⟩ ⟨sX, hx⟩
    | none =>
      have hr : resolveSnapshots db c u =
          ⟨sT, contextsForProcessingStr db u,
            cacheSet c ⟨u, .contextsForProcessing⟩ (contextsForProcessingStr db u) 3600, 1⟩ := by
        unfold resolveSnapshots
        dsimp only
        rw [ht]
        dsimp only
        rw [hx]
        rfl
      refine ⟨?_, ?_, ?_, ?_, ?_⟩
      · intro v hv
        rw [hr]
        exact Option.some.inj hv
      · intro h0
        exact Option.noConfusion h0
      · intro v hv
        exact Option.noConfusion hv
      · intro h0
        rw [hr]
        exact ⟨rfl, cacheEntry?_set_self _ _ _ _⟩
      · rw [hr]
        apply resolveSnapshots_queries_zero_of_hits
        · exact ⟨sT, by rw [truthyGet_set_ne _ _ _ _ _ (key_purpose_ne u u)]; exact ht⟩
        · exact ⟨contextsForProcessingStr db u,
            truthyGet_set_self _ _ _ _ (contextsStr_ne_empty db u)⟩
  | none =>
    have htT : truthyGet (cacheSet c ⟨u, .tasksForProcessing⟩ (tasksForProcessingStr db u) 3600)
        ⟨u, .contextsForProcessing⟩ = truthyGet c ⟨u, .contextsForProcessing⟩ :=
      truthyGet_set_ne _ _ _ _ _ (key_purpose_ne2 u u)
    cases hx : truthyGet c ⟨u, .contextsForProcessing⟩ with
    | some sX =>
      have hr : resolveSnapshots db c u =
          ⟨tasksForProcessingStr db u, sX,
            cacheSet c ⟨u, .tasksForProcessing⟩ (tasksForProcessingStr db u) 3600, 1⟩ := by
        unfold resolveSnapshots
        dsimp only
        rw [ht]
        dsimp only
        rw [htT, hx]
        rfl
      refine ⟨?_, ?_, ?_, ?_, ?_⟩
      · intro v hv
        exact Option.noConfusion hv
      · intro h0
        rw [hr]
        exact ⟨rfl, cacheEntry?_set_self _ _ _ _⟩
      · intro v hv
        rw [hr]
        exact Option.some.inj hv
      · intro h0
        exact Option.noConfusion h0
      · rw [hr]
        apply resolveSnapshots_queries_zero_of_hits
        · exact ⟨tasksForProcessingStr db u,
            truthyGet_set_self _ _ _ _ (tasksStr_ne_empty db u)⟩
        · exact ⟨sX, by rw [truthyGet_set_ne _ _ _ _ _ (key_purpose_ne2 u u)]; exact hx⟩
    | none =>
      have hr : resolveSnapshots db c u =
          ⟨tasksForProcessingStr db u, contextsForProcessingStr db u,
            cacheSet (cacheSet c ⟨u, .tasksForProcessing⟩ (tasksForProcessingStr db u) 3600)
              ⟨u, .contextsForProcessing⟩ (contextsForProcessingStr db u) 3600, 2⟩ := by
        unfold resolveSnapshots
        dsimp only
        rw [ht]
        dsimp only
        rw [htT, hx]
        rfl
      refine ⟨?_, ?_, ?_, ?_, ?_⟩
      · intro v hv
        exact Option.noConfusion hv
      · intro h0
        rw [hr]
        refine ⟨rfl, ?_⟩
        rw [cacheEntry?_set_ne _ _ _ _ _ (key_purpose_ne u u)]
        exact cacheEntry?_set_self _ _ _ _
      · intro v hv
        exact Option.noConfusion hv
      · intro h0
        rw [hr]
        exact ⟨rfl, cacheEntry?_set_self _ _ _ _⟩
      · rw [hr]
        apply resolveSnapshots_queries_zero_of_hits
        · exact ⟨tasksForProcessingStr db u, by
            rw [truthyGet_set_ne _ _ _ _ _ (key_purpose_ne u u)]
            exact truthyGet_set_self _ _ _ _ (tasksStr_ne_empty db u)⟩
        · exact ⟨contextsForProcessingStr db u,
            truthyGet_set_self _ _ _ _ (contextsStr_ne_empty db u)⟩

/-- Witness for C9: on an empty cache the first resolution queries and
caches both snapshots with TTL 3600, and the immediate second resolution
issues zero queries. -/
theorem snapshot_read_through_idempotent_witness :
    (resolveSnapshots ⟨[], [], [], 0, 0⟩ ⟨[], true⟩ 1).tasksStr =
      tasksForProcessingStr ⟨[], [], [], 0, 0⟩ 1 ∧
    cacheEntry? (resolveSnapshots ⟨[], [], [], 0, 0⟩ ⟨[], true⟩ 1).cache
        ⟨1, .tasksForProcessing⟩ =
      some ⟨⟨1, .tasksForProcessing⟩, tasksForProcessingStr ⟨[], [], [], 0, 0⟩ 1, 3600⟩ ∧
    (resolveSnapshots ⟨[], [], [], 0, 0⟩
        (resolveSnapshots ⟨[], [], [], 0, 0⟩ ⟨[], true⟩ 1).cache 1).queries = 0 := by
  refine ⟨?_, ?_, ?_⟩
  · exact ((snapshot_read_through_idempotent ⟨[], [], [], 0, 0⟩ ⟨[], true⟩ 1).2.1 rfl).1
  · exact ((snapshot_read_through_idempotent ⟨[], [], [], 0, 0⟩ ⟨[], true⟩ 1).2.1 rfl).2
  · exact (snapshot_read_through_idempotent ⟨[], [], [], 0, 0⟩ ⟨[], true⟩ 1).2.2.2.2

/-! ### C6: the scoring prompt's context section -/

/-- Eleven active tasks for user 1: the oldest (`T0`, created_at 0) has the
highest score 100; `Ti` (i = 1..10) has score i and created_at i. -/
def elevenTaskDb : DB :=
  ⟨⟨0, 1, "T0", none, none, some 100, none, none, "Pending", 0⟩ ::
    (List.range 10).map (fun i =>
      ⟨i + 1, 1, "T" ++ toString (i + 1), none, none, some (Int.ofNat (i + 1)), none, none,
        "Pending", i + 1⟩), [], [], 100, 100⟩

/-- C6 counterexample: the claim says the context section is built from the
10 most-recent active tasks (then ordered by descending score), but the
code's `order_by('-priority_score')[:10]` keeps the highest-scored tasks
regardless of recency: with eleven active tasks where the oldest has the
top score, the two renderings differ. -/
theorem scoring_context_recency_counterexample :
    existingTasksStr elevenTaskDb 1 ≠ claimContextSection elevenTaskDb 1 := by decide

/-- C6 amended: the context section is built from up to the 10
highest-priority-score active (Pending or In Progress) tasks of the user —
not the most recent — listed in descending score order and rendered as the
bulleted summary, or the fixed no-active-tasks sentence when the user has
no active tasks. -/
theorem scoring_context_selection (db : DB) (u : Nat) :
    (top10ByScore db u).length ≤ 10 ∧
    (∀ t ∈ top10ByScore db u, t ∈ activeTasks db u) ∧
    List.Pairwise ScoreGe (top10ByScore db u) ∧
    (∀ t ∈ activeTasks db u, t ∉ top10ByScore db u →
      ∀ t2 ∈ top10ByScore db u, ScoreGe t2 t) ∧
    (activeTasks db u = [] →
      existingTasksStr db u = "The user has no other active tasks.") ∧
    (activeTasks db u ≠ [] →
      existingTasksStr db u =
        String.intercalate newline ((top10ByScore db u).map taskBullet)) := by
  have hperm := List.perm_insertionSort ScoreGe (activeTasks db u)
  have hsorted := List.sorted_insertionSort ScoreGe (activeTasks db u)
  refine ⟨List.length_take_le 10 _, ?_, ?_, ?_, ?_, ?_⟩
  · intro t ht
    exact hperm.mem_iff.mp ((List.take_sublist 10 _).subset ht)
  · exact List.Pairwise.sublist (List.take_sublist 10 _) hsorted
  · intro t htA htN t2 ht2
    have htL : t ∈ List.insertionSort ScoreGe (activeTasks db u) := hperm.mem_iff.mpr htA
    have hsplit := List.take_append_drop 10 (List.insertionSort ScoreGe (activeTasks db u))
    have hP : List.Pairwise ScoreGe
        ((List.insertionSort ScoreGe (activeTasks db u)).take 10 ++
          (List.insertionSort ScoreGe (activeTasks db u)).drop 10) := by
      rw [hsplit]
      exact hsorted
    have hcross := (List.pairwise_append.mp hP).2.2
    have htL2 : t ∈ (List.insertionSort ScoreGe (activeTasks db u)).take 10 ++
        (List.insertionSort ScoreGe (activeTasks db u)).drop 10 := by
      rw [hsplit]
      exact htL
    have htD : t ∈ (List.insertionSort ScoreGe (activeTasks db u)).drop 10 := by
      rcases List.mem_append.mp htL2 with h | h
      · exact absurd h htN
      · exact h
    exact hcross t2 ht2 t htD
  · intro h
    have hsel : top10ByScore db u = [] := by
      unfold top10ByScore
      rw [h]
      rfl
    unfold existingTasksStr
    rw [hsel]
    rfl
  · intro h
    cases hsel : top10ByScore db u with
    | nil =>
      exfalso
      rcases List.take_eq_nil_iff.mp hsel with h10 | hs
      · exact absurd h10 (by decide)
      · have hlen := hperm.length_eq
        rw [hs] at hlen
        exact h (List.length_eq_zero.mp hlen.symm)
    | cons a l =>
      unfold existingTasksStr
      rw [hsel]
      rfl

/-- Witness for C6 at the eleven-task store: the rendering equals the
bulleted top-10-by-score list, and the dropped lowest-score task is
score-dominated by the selected oldest-but-highest task. -/
theorem scoring_context_selection_witness :
    existingTasksStr elevenTaskDb 1 =
      String.intercalate newline ((top10ByScore elevenTaskDb 1).map taskBullet) ∧
    ScoreGe ⟨0, 1, "T0", none, none, some 100, none, none, "Pending", 0⟩
      ⟨1, 1, "T1", none, none, some 1, none, none, "Pending", 1⟩ := by
  constructor
  · exact (scoring_context_selection elevenTaskDb 1).2.2.2.2.2 (by decide)
  · exact (scoring_context_selection elevenTaskDb 1).2.2.2.1
      ⟨1, 1, "T1", none, none, some 1, none, none, "Pending", 1⟩ (by decide) (by decide)
      ⟨0, 1, "T0", none, none, some 100, none, none, "Pending", 0⟩ (by decide)

/-! ### Helper lemmas: semantics of the greedy span search -/

theorem firstIdx?_eq_none (p : Char → Bool) (cs : List Char)
    (h : firstIdx? p cs = none) : ∀ y ∈ cs, p y = false := by
  induction cs with
  | nil =>
    intro y hy
    exact absurd hy (List.not_mem_nil y)
  | cons c cs ih =>
    intro y hy
    unfold firstIdx? at h
    by_cases hp : p c = true
    · rw [if_pos hp] at h
      exact Option.noConfusion h
    · rw [if_neg hp] at h
      rcases List.mem_cons.mp hy with rfl | hy2
      · simp only [Bool.not_eq_true] at hp
        exact hp
      · exact ih (Option.map_eq_none'.mp h) y hy2

theorem lastIdx?_eq_none (p : Char → Bool) (cs : List Char)
    (h : lastIdx? p cs = none) : ∀ y ∈ cs, p y = false := by
  induction cs with
  | nil =>
    intro y hy
    exact absurd hy (List.not_mem_nil y)
  | cons c cs ih =>
    unfold lastIdx? at h
    cases hm : lastIdx? p cs with
    | some k =>
      rw [hm] at h
      exact Option.noConfusion h
    | none =>
      rw [hm] at h
      by_cases hp : p c = true
      · rw [if_pos hp] at h
        exact Option.noConfusion h
      · intro y hy
        rcases List.mem_cons.mp hy with rfl | hy2
        · simp only [Bool.not_eq_true] at hp
          exact hp
        · exact ih hm y hy2

theorem firstIdx?_decomp (p : Char → Bool) (cs : List Char) (i : Nat)
    (h : firstIdx? p cs = some i) :
    ∃ pre x rest, cs = pre ++ x :: rest ∧ pre.length = i ∧ (∀ y ∈ pre, p y = false) ∧
      p x = true := by
  induction cs generalizing i with
  | nil => exact Option.noConfusion h
  | cons c cs ih =>
    unfold firstIdx? at h
    by_cases hp : p c = true
    · rw [if_pos hp] at h
      rcases Option.some.inj h with rfl
      exact ⟨[], c, cs, rfl, rfl, fun y hy => absurd hy (List.not_mem_nil y), hp⟩
    · rw [if_neg hp] at h
      cases hm : firstIdx? p cs with
      | none =>
        rw [hm] at h
        exact Option.noConfusion h
      | some j =>
        rw [hm] at h
        simp only [Option.map_some'] at h
        have hij := Option.some.inj h
        obtain ⟨pre, x, rest, hcs, hlen, hpre, hx⟩ := ih j hm
        refine ⟨c :: pre, x, rest, congrArg (fun l => c :: l) hcs, ?_, ?_, hx⟩
        · rw [List.length_cons, hlen]
          exact hij
        · intro y hy
          rcases List.mem_cons.mp hy with rfl | hy2
          · simp only [Bool.not_eq_true] at hp
            exact hp
          · exact hpre y hy2

theorem lastIdx?_decomp (p : Char → Bool) (cs : List Char) (j : Nat)
    (h : lastIdx? p cs = some j) :
    ∃ pre x rest, cs = pre ++ x :: rest ∧ pre.length = j ∧ p x = true ∧
      (∀ y ∈ rest, p y = false) := by
  induction cs generalizing j with
  | nil => exact Option.noConfusion h
  | cons c cs ih =>
    unfold lastIdx? at h
    cases hm : lastIdx? p cs with
    | some k =>
      rw [hm] at h
      have hk := Option.some.inj h
      obtain ⟨pre, x, rest, hcs, hlen, hx, hrest⟩ := ih k hm
      refine ⟨c :: pre, x, rest, congrArg (fun l => c :: l) hcs, ?_, hx, hrest⟩
      rw [List.length_cons, hlen]
      exact hk
    | none =>
      rw [hm] at h
      by_cases hp : p c = true
      · rw [if_pos hp] at h
        rcases Option.some.inj h with rfl
        exact ⟨[], c, cs, rfl, rfl, hp, lastIdx?_eq_none p cs hm⟩
      · rw [if_neg hp] at h
        exact Option.noConfusion h

theorem firstIdx?_le_of_decomp (p : Char → Bool) (pre rest : List Char) (x : Char)
    (hx : p x = true) : ∃ i, firstIdx? p (pre ++ x :: rest) = some i ∧ i ≤ pre.length := by
  induction pre with
  | nil =>
    refine ⟨0, ?_, Nat.le_refl 0⟩
    show firstIdx? p (x :: rest) = some 0
    unfold firstIdx?
    rw [if_pos hx]
  | cons a pre ih =>
    obtain ⟨i, hi, hle⟩ := ih
    by_cases hp : p a = true
    · refine ⟨0, ?_, Nat.zero_le _⟩
      show firstIdx? p (a :: (pre ++ x :: rest)) = some 0
      unfold firstIdx?
      rw [if_pos hp]
    · refine ⟨i + 1, ?_, ?_⟩
      · show firstIdx? p (a :: (pre ++ x :: rest)) = some (i + 1)
        unfold firstIdx?
        rw [if_neg hp, hi]
        rfl
      · rw [List.length_cons]
        exact Nat.succ_le_succ hle

theorem lastIdx?_ge_of_decomp (p : Char → Bool) (pre rest : List Char) (x : Char)
    (hx : p x = true) : ∃ j, lastIdx? p (pre ++ x :: rest) = some j ∧ pre.length ≤ j := by
  induction pre with
  | nil =>
    cases hm : lastIdx? p rest with
    | some k =>
      refine ⟨k + 1, ?_, Nat.zero_le _⟩
      show lastIdx? p (x :: rest) = some (k + 1)
      unfold lastIdx?
      rw [hm]
    | none =>
      refine ⟨0, ?_, Nat.zero_le _⟩
      show lastIdx? p (x :: rest) = some 0
      unfold lastIdx?
      rw [hm, if_pos hx]
  | cons a pre ih =>
    obtain ⟨j, hj, hge⟩ := ih
    refine ⟨j + 1, ?_, ?_⟩
    · show lastIdx? p (a :: (pre ++ x :: rest)) = some (j + 1)
      unfold lastIdx?
      rw [hj]
    · rw [List.length_cons]
      exact Nat.succ_le_succ hge

/-- A successful greedy-span search decomposes the text as
`pre ++ span ++ post` where `pre` holds no opener (the span starts at the
FIRST opener) and `post` holds no closer (the span ends at the LAST
closer), and the span itself starts with the opener and ends with the
closer. -/
theorem spanGreedy_decomp (o c : Char) (cs sp : List Char)
    (h : spanGreedy o c cs = some sp) :
    ∃ pre post, cs = pre ++ sp ++ post ∧ (∀ y ∈ pre, y ≠ o) ∧
      (∀ y ∈ post, y ≠ c) ∧ sp.head? = some o ∧ sp.getLast? = some c := by
  unfold spanGreedy at h
  cases hf : firstIdx? (fun x => x = o) cs with
  | none =>
    rw [hf] at h
    exact Option.noConfusion h
  | some i =>
    rw [hf] at h
    cases hl : lastIdx? (fun x => x = c) cs with
    | none =>
      rw [hl] at h
      exact Option.noConfusion h
    | some j =>
      rw [hl] at h
      dsimp only at h
      by_cases hij : i ≤ j
      · rw [if_pos hij] at h
        have hsp := Option.some.inj h
        subst hsp
        obtain ⟨pre1, x1, rest1, hcs1, hlen1, hpre1, hx1⟩ := firstIdx?_decomp _ cs i hf
        obtain ⟨pre2, x2, rest2, hcs2, hlen2, hx2, hrest2⟩ := lastIdx?_decomp _ cs j hl
        have hxo : x1 = o := of_decide_eq_true hx1
        have hxc : x2 = c := of_decide_eq_true hx2
        have hre : pre2 ++ x2 :: rest2 = (pre2 ++ [x2]) ++ rest2 := by simp
        have hlen2b : (pre2 ++ [x2]).length = j + 1 := by
          rw [List.length_append, hlen2]
          rfl
        have htakei : cs.take i = pre1 := by
          rw [hcs1, ← hlen1, List.take_left]
        have hdropi : cs.drop i = x1 :: rest1 := by
          rw [hcs1, ← hlen1, List.drop_left]
        have hdropj : cs.drop (j + 1) = rest2 := by
          rw [hcs2, hre, ← hlen2b, List.drop_left]
        have htakej : cs.take (j + 1) = pre2 ++ [x2] := by
          rw [hcs2, hre, ← hlen2b, List.take_left]
        have hadd : i + (j + 1 - i) = j + 1 := by omega
        refine ⟨cs.take i, cs.drop (j + 1), ?_, ?_, ?_, ?_, ?_⟩
        · rw [← List.take_add, hadd, List.take_append_drop]
        · intro y hy
          rw [htakei] at hy
          exact of_decide_eq_false (hpre1 y hy)
        · intro y hy
          rw [hdropj] at hy
          exact of_decide_eq_false (hrest2 y hy)
        · have hstep : j + 1 - i = (j - i) + 1 := by omega
          rw [hdropi, hstep, List.take_succ_cons]
          exact congrArg some hxo
        · have hsp2 : (cs.drop i).take (j + 1 - i) = (cs.take (j + 1)).drop i := by
            rw [List.drop_take]
          rw [hsp2, htakej, List.drop_append_eq_append_drop]
          have hz : i - pre2.length = 0 := by omega
          rw [hz]
          show (pre2.drop i ++ [x2]).getLast? = some c
          rw [List.getLast?_concat]
          exact congrArg some hxc
      · rw [if_neg hij] at h
        exact Option.noConfusion h

/-- A failed greedy-span search means the text contains no opener followed
(at any distance) by a closer. -/
theorem spanGreedy_none (o c : Char) (cs : List Char) (h : spanGreedy o c cs = none) :
    ∀ pre mid post, cs ≠ pre ++ o :: (mid ++ c :: post) := by
  intro pre mid post hcs
  rw [hcs] at h
  unfold spanGreedy at h
  obtain ⟨i, hi, hile⟩ :=
    firstIdx?_le_of_decomp (fun x => x = o) pre (mid ++ c :: post) o (by simp)
  have hassoc : pre ++ o :: (mid ++ c :: post) = (pre ++ o :: mid) ++ c :: post := by
    simp
  obtain ⟨j, hj, hjge⟩ :=
    lastIdx?_ge_of_decomp (fun x => x = c) (pre ++ o :: mid) post c (by simp)
  have hj2 : lastIdx? (fun x => decide (x = c)) (pre ++ o :: (mid ++ c :: post)) = some j := by
    rw [hassoc]
    exact hj
  rw [hi, hj2] at h
  dsimp only at h
  have hij : i ≤ j := by
    have h2 : pre.length ≤ (pre ++ o :: mid).length := by
      rw [List.length_append]
      omega
    omega
  rw [if_pos hij] at h
  exact Option.noConfusion h

/-! ### C3 and C4: span extraction claims -/

/-- C3 counterexample: the claim describes a NON-greedy first span, but the
code's regex is greedy. On the text `("a": ("x": 1), "score": 9)` (with
braces) the greedy span is the whole object and yields 9, while the
claim's non-greedy span is an unparseable prefix whose digit fallback
yields 1. -/
theorem extract_score_span_counterexample :
    extract_score (ob ++ "\"a\": " ++ ob ++ "\"x\": 1" ++ cb ++ ", \"score\": 9" ++ cb) =
      Except.ok 9 ∧
    extractScoreClaim (ob ++ "\"a\": " ++ ob ++ "\"x\": 1" ++ cb ++ ", \"score\": 9" ++ cb) =
      Except.ok 1 ∧
    (9 : Int) ≠ 1 :=
  ⟨rfl, rfl, by decide⟩

/-- C3 amended: score extraction locates the GREEDY brace span — from the
first opening brace to the last closing brace (embedded newlines allowed,
`re.DOTALL`) — parses it as a JSON object with key `score` coerced to
integer, falls back to the first run of decimal digits anywhere in the
text, and fails with `ExtractionFailed` only if neither succeeds. The four
quoted examples behave as stated. -/
theorem extract_score_amended :
    extract_score (ob ++ "\"score\": 42" ++ cb) = Except.ok 42 ∧
    extract_score ("blah blah " ++ ob ++ "\"score\": 7" ++ cb ++ " trailing text") =
      Except.ok 7 ∧
    extract_score "the answer is 88" = Except.ok 88 ∧
    extract_score "no numbers here" = Except.error () ∧
    (∀ (cs sp : List Char), spanGreedy lbrace rbrace cs = some sp →
      ∃ pre post, cs = pre ++ sp ++ post ∧ (∀ y ∈ pre, y ≠ lbrace) ∧
        (∀ y ∈ post, y ≠ rbrace) ∧ sp.head? = some lbrace ∧ sp.getLast? = some rbrace) ∧
    (∀ cs : List Char, spanGreedy lbrace rbrace cs = none →
      ∀ pre mid post, cs ≠ pre ++ lbrace :: (mid ++ rbrace :: post)) ∧
    (∀ s : String, scoreJsonAttempt s.data = none →
      extract_score s =
        match firstDigitRun s.data with
        | some ds => Except.ok (Int.ofNat (natOfDigits ds))
        | none => Except.error ()) := by
  refine ⟨rfl, rfl, rfl, rfl, ?_, ?_, ?_⟩
  · exact fun cs sp h => spanGreedy_decomp lbrace rbrace cs sp h
  · exact fun cs h => spanGreedy_none lbrace rbrace cs h
  · intro s h
    unfold extract_score
    rw [h]

/-- Witness for C3 amended: the greedy span of `x(y)z` (braced) is `(y)`,
decomposed with brace-free prefix and suffix; and a span-free text falls
back to its first digit run. -/
theorem extract_score_amended_witness :
    (∃ pre post, ("x" ++ ob ++ "y" ++ cb ++ "z").data = pre ++ (ob ++ "y" ++ cb).data ++ post ∧
      (∀ y ∈ pre, y ≠ lbrace) ∧ (∀ y ∈ post, y ≠ rbrace) ∧
      (ob ++ "y" ++ cb).data.head? = some lbrace ∧
      (ob ++ "y" ++ cb).data.getLast? = some rbrace) ∧
    extract_score "the answer is 88" =
      (match firstDigitRun ("the answer is 88").data with
        | some ds => Except.ok (Int.ofNat (natOfDigits ds))
        | none => Except.error ()) :=
  ⟨extract_score_amended.2.2.2.2.1 ("x" ++ ob ++ "y" ++ cb ++ "z").data
      (ob ++ "y" ++ cb).data rfl,
    extract_score_amended.2.2.2.2.2.2 "the answer is 88" rfl⟩

/-- C4 counterexample: (i) the claim describes a NON-greedy bracket span,
but on `[1] x ]` the code's greedy span is the whole text, which fails to
parse (an AI-communication error), while the claim's non-greedy span `[1]`
parses to one draft; (ii) when no bracketed span is present the success
response is `(created_count, details)` — there is no `created_tasks` list,
contradicting the claimed response shape. -/
theorem task_array_extraction_counterexample :
    extract_task_array "[1] x ]" = ArrayExtract.parseFail ∧
    extractTaskArrayClaim "[1] x ]" = ArrayExtract.parsed [JValue.intNum 1] ∧
    (process_contexts_for_tasks ⟨⟨[], [], [], 0, 0⟩, ⟨[], true⟩⟩ 1 (Except.ok "no array here")
        (fun _ => Except.error .upstreamUnavailable)).1 =
      ProcResponse.noTasks 0 "No new tasks suggested by AI." ∧
    isCreatedShape (process_contexts_for_tasks ⟨⟨[], [], [], 0, 0⟩, ⟨[], true⟩⟩ 1
        (Except.ok "no array here") (fun _ => Except.error .upstreamUnavailable)).1 = false :=
  ⟨rfl, rfl, rfl, rfl⟩

/-- C4 amended: task-array extraction locates the GREEDY bracket span
(first `[` to last `]`); when no bracketed span is present the operation
returns the 200 success response with `created_count` 0 and a `details`
message (no created-tasks list), leaving the store unchanged; and a draft
object carrying only a valid title validates with every optional field
defaulted. -/
theorem task_array_extraction_amended :
    (∀ (cs sp : List Char), spanGreedy lbrack rbrack cs = some sp →
      ∃ pre post, cs = pre ++ sp ++ post ∧ (∀ y ∈ pre, y ≠ lbrack) ∧
        (∀ y ∈ post, y ≠ rbrack) ∧ sp.head? = some lbrack ∧ sp.getLast? = some rbrack) ∧
    (∀ cs : List Char, spanGreedy lbrack rbrack cs = none →
      ∀ pre mid post, cs ≠ pre ++ lbrack :: (mid ++ rbrack :: post)) ∧
    (∀ (st : Store) (u : Nat) (content : String)
        (scoreResps : Nat → Except UpstreamFailure String),
      spanGreedy lbrack rbrack content.data = none →
        (process_contexts_for_tasks st u (Except.ok content) scoreResps).1 =
          ProcResponse.noTasks 0 "No new tasks suggested by AI." ∧
        (process_contexts_for_tasks st u (Except.ok content) scoreResps).2.1.db = st.db) ∧
    (∀ t : String, 0 < t.length → t.length ≤ 255 →
      validateDraft (JValue.obj [("title", JValue.str t)]) =
        some ⟨t, none, none, none, none, "Pending"⟩) := by
  refine ⟨fun cs sp h => spanGreedy_decomp lbrack rbrack cs sp h,
    fun cs h => spanGreedy_none lbrack rbrack cs h, ?_, ?_⟩
  · intro st u content scoreResps h
    have hx : extract_task_array content = ArrayExtract.noSpan := by
      unfold extract_task_array
      rw [h]
    unfold process_contexts_for_tasks
    dsimp only
    rw [hx]
    exact ⟨rfl, rfl⟩
  · intro t h1 h2
    have ht : titleField [("title", JValue.str t)] = some t := by
      show (if t.length = 0 ∨ 255 < t.length then none else some t) = some t
      rw [if_neg]
      intro hc
      rcases hc with hc | hc <;> omega
    unfold validateDraft validateFields
    dsimp only
    rw [ht]
    rfl

/-- Witness for C4 amended: a concrete span-free reply yields the
zero-count details response, and a title-only draft validates. -/
theorem task_array_extraction_amended_witness :
    (process_contexts_for_tasks ⟨⟨[], [], [], 0, 0⟩, ⟨[], true⟩⟩ 2
        (Except.ok "nothing bracketed") (fun _ => Except.error .upstreamUnavailable)).1 =
      ProcResponse.noTasks 0 "No new tasks suggested by AI." ∧
    validateDraft (JValue.obj [("title", JValue.str "A")]) =
      some ⟨"A", none, none, none, none, "Pending"⟩ :=
  ⟨(task_array_extraction_amended.2.2.1 ⟨⟨[], [], [], 0, 0⟩, ⟨[], true⟩⟩ 2 "nothing bracketed"
      (fun _ => Except.error .upstreamUnavailable) rfl).1,
    task_array_extraction_amended.2.2.2 "A" (by decide) (by decide)⟩

end TodoApp
